import Mathlib

/-!
Verification of the FINS general-ledger core against its specification.

This file shallowly embeds the Python services of
`AI-ERP-Accounting-System/backend/core-services`:

* `general-ledger/src/services/journal_service.py` (`JournalService`),
* `general-ledger/src/services/gl_service.py` (`GeneralLedgerService`),
* `accounts-receivable/src/services/ar_service.py` (`ARService.generate_aging_report`),

together with the SQLAlchemy/pydantic models in
`general-ledger/src/models/journal_entries.py` and `chart_of_accounts.py`.

Modelling conventions:
* The SQLAlchemy session is an explicit `DB` value threaded through each
  operation; a Python `raise` followed by `db.rollback()` becomes an
  `Except.error` returning no new state (the caller keeps the old `DB`).
* Exact decimal amounts (`Numeric(15, 2)`) are modelled as integers in cents;
  only sums, differences and equality comparisons of amounts occur, so the
  fixed scale is irrelevant to every property proved here.
* `datetime.utcnow()` is an explicit `Timestamp` parameter; the only structure
  the code reads from it is the calendar year, the rest is stored opaquely.
* Dates are day numbers (`Int`); Python's `(a - b).days` becomes `a - b`.
* Synthetic autoincrement ids for rows are modelled with `nextEntryId` /
  `nextAccountId` counters in `DB`; the per-line synthetic id column is never
  read by any service code and is omitted.
-/

/-- A UTC instant.  `year` is the calendar year (`datetime.utcnow().year`);
`tick` stands for the remaining, otherwise-unread precision. -/
structure Timestamp where
  year : Nat
  tick : Nat
deriving DecidableEq, Repr

/-- The `status` column of `journal_entries`: "Draft", "Posted" or "Void". -/
inductive EntryStatus where
  | Draft
  | Posted
  | Void
deriving DecidableEq, Repr

/-- A row of `chart_of_accounts` (audit timestamp/author columns, which no
service logic ever reads, are omitted). -/
structure Account where
  id : Nat
  account_code : String
  account_name : String
  account_type : String
  account_category : String
  parent_account_id : Option Nat
  description : Option String
  is_active : Bool
  is_system_account : Bool
  normal_balance : String
deriving DecidableEq, Repr

/-- pydantic `ChartOfAccountsCreate`. -/
structure ChartOfAccountsCreate where
  account_code : String
  account_name : String
  account_type : String
  account_category : String
  parent_account_id : Option Nat
  description : Option String
  is_active : Bool
  is_system_account : Bool
  normal_balance : String
deriving DecidableEq, Repr

/-- pydantic `ChartOfAccountsUpdate` under `exclude_unset` semantics: an outer
`some` means the field was supplied in the update payload. -/
structure ChartOfAccountsUpdate where
  account_name : Option String := none
  account_type : Option String := none
  account_category : Option String := none
  parent_account_id : Option (Option Nat) := none
  description : Option (Option String) := none
  is_active : Option Bool := none
  normal_balance : Option String := none
deriving DecidableEq, Repr

/-- A row of `journal_lines` (synthetic line id and audit timestamps, never
read by service logic, omitted). -/
structure JournalLine where
  journal_entry_id : Nat
  account_id : Nat
  line_number : Nat
  description : Option String
  debit_amount : Int
  credit_amount : Int
deriving DecidableEq, Repr

/-- pydantic `JournalLineCreate`. -/
structure JournalLineCreate where
  account_id : Nat
  line_number : Nat
  description : Option String := none
  debit_amount : Int := 0
  credit_amount : Int := 0
deriving DecidableEq, Repr

/-- A row of `journal_entries`, with its owned `journal_lines` collection
embedded (the SQLAlchemy relationship with delete-orphan cascade). -/
structure JournalEntry where
  id : Nat
  entry_number : String
  entry_date : Int
  reference : Option String
  description : String
  entry_type : String
  status : EntryStatus
  total_debits : Int
  total_credits : Int
  is_balanced : Bool
  posted_at : Option Timestamp
  posted_by : Option Nat
  created_at : Timestamp
  updated_at : Timestamp
  journal_lines : List JournalLine
deriving DecidableEq, Repr

/-- pydantic `JournalEntryCreate`. -/
structure JournalEntryCreate where
  entry_date : Int
  reference : Option String
  description : String
  entry_type : String
  journal_lines : List JournalLineCreate
deriving DecidableEq, Repr

/-- pydantic `JournalEntryUpdate` under `exclude_unset` semantics. -/
structure JournalEntryUpdate where
  entry_date : Option Int := none
  reference : Option (Option String) := none
  description : Option String := none
  entry_type : Option String := none
  journal_lines : Option (List JournalLineCreate) := none
deriving DecidableEq, Repr

/-- The database state seen by the services. -/
structure DB where
  accounts : List Account
  entries : List JournalEntry
  nextAccountId : Nat
  nextEntryId : Nat
deriving DecidableEq, Repr

/-- The empty database. -/
def DB.empty : DB := ⟨[], [], 1, 1⟩

/-- The `ValueError`s raised by `JournalService`, as error kinds carrying the
context that appears in the corresponding message string. -/
inductive JErr where
  | Unbalanced (debits credits : Int)
  | InvalidAccount (account_id : Nat)
  | NotFound (entry_id : Nat)
  | AlreadyPosted (entry_id : Nat)
  | CannotPostVoid (entry_id : Nat)
  | CannotPostUnbalanced (entry_id : Nat)
  | CannotVoidPosted (entry_id : Nat)
  | AlreadyVoid (entry_id : Nat)
  | NotPosted (entry_id : Nat)
  | ImmutablePosted
deriving DecidableEq, Repr

/-- The `ValueError`s raised by `GeneralLedgerService`. -/
inductive GLErr where
  | DuplicateCode (code : String)
  | ParentNotFound (parent_id : Nat)
  | HasActiveChildren (count : Nat)
  | AccountNotFound (account_id : Nat)
deriving DecidableEq, Repr

/-! ## Decimal rendering and the entry-number format

`JournalService._generate_entry_number` formats `f"JE-{year}-{count+1:05d}"`.
Decimal digits are computed by a fuel-indexed structural recursion so that all
concrete evaluation stays kernel-reducible. -/

/-- Little-endian decimal digits of `n`; `fuel` bounds the recursion depth.
For `n < fuel` this is the standard digit expansion (and `[n]` when `n < 10`,
so `0` renders as `"0"` exactly as Python's `str`). -/
def decDigitsFuel : Nat → Nat → List Nat
  | 0, _ => []
  | fuel + 1, n => if n < 10 then [n] else n % 10 :: decDigitsFuel fuel (n / 10)

/-- Little-endian decimal digits of `n`. -/
def decDigits (n : Nat) : List Nat := decDigitsFuel (n + 1) n

/-- The characters of the decimal rendering of `n`, most significant first. -/
def decimalChars (n : Nat) : List Char := ((decDigits n).map Nat.digitChar).reverse

/-- Python `str(n)` for a natural number. -/
def decRepr (n : Nat) : String := String.mk (decimalChars n)

/-- Python `f"{n:05d}"`: the decimal rendering left-padded with zeros to at
least five characters. -/
def pad5c (n : Nat) : List Char :=
  List.replicate (5 - (decimalChars n).length) '0' ++ decimalChars n

/-- The `JE-<year>-<zero-padded seq>` entry-number format of
`_generate_entry_number`. -/
def fmtEntryNumber (year seq : Nat) : String :=
  String.mk (['J', 'E', '-'] ++ decimalChars year ++ ['-'] ++ pad5c seq)

/-- Reads a digit string back as a number (leading zeros allowed). -/
def strVal (cs : List Char) : Nat :=
  cs.foldl (fun acc c => 10 * acc + (c.toNat - 48)) 0

/-- The numeric suffix of an entry number: the digits after the last dash. -/
def numericSuffix (s : String) : Nat :=
  strVal ((s.data.reverse.takeWhile (fun c => c ≠ '-')).reverse)

/-! ## Shared query helpers -/

/-- `db.query(JournalEntry).filter(JournalEntry.id == entry_id).first()`. -/
def findEntry (l : List JournalEntry) (eid : Nat) : Option JournalEntry :=
  l.find? (fun e => e.id == eid)

/-- `db.query(ChartOfAccounts).filter(ChartOfAccounts.id == account_id).first()`. -/
def findAccount (l : List Account) (aid : Nat) : Option Account :=
  l.find? (fun a => a.id == aid)

/-- Mutating the ORM object returned by `.first()` and committing: replace the
first list element whose id matches. -/
def modifyFirstEntry (l : List JournalEntry) (eid : Nat)
    (g : JournalEntry → JournalEntry) : List JournalEntry :=
  match l with
  | [] => []
  | e :: rest => if e.id == eid then g e :: rest else e :: modifyFirstEntry rest eid g

/-- Same for accounts. -/
def modifyFirstAccount (l : List Account) (aid : Nat)
    (g : Account → Account) : List Account :=
  match l with
  | [] => []
  | a :: rest => if a.id == aid then g a :: rest else a :: modifyFirstAccount rest aid g

/-- The per-line account validation of `create_journal_entry` /
`update_journal_entry`: the account row with this id must exist and be active. -/
def accountValid (db : DB) (aid : Nat) : Bool :=
  (db.accounts.find? (fun a => a.id == aid && a.is_active)).isSome

/-- The validation loop over the incoming lines: the account id of the first
line whose account is missing or inactive (the loop raises there). -/
def firstInvalidAccount (db : DB) : List JournalLineCreate → Option Nat
  | [] => none
  | l :: rest =>
    if accountValid db l.account_id then firstInvalidAccount db rest
    else some l.account_id

/-- `sum(line.debit_amount for line in lines)`. -/
def sumDebits (ls : List JournalLineCreate) : Int :=
  (ls.map (fun l => l.debit_amount)).sum

/-- `sum(line.credit_amount for line in lines)`. -/
def sumCredits (ls : List JournalLineCreate) : Int :=
  (ls.map (fun l => l.credit_amount)).sum

/-- Turning a `JournalLineCreate` into a stored `journal_lines` row of entry
`eid`. -/
def toLine (eid : Nat) (l : JournalLineCreate) : JournalLine :=
  { journal_entry_id := eid
    account_id := l.account_id
    line_number := l.line_number
    description := l.description
    debit_amount := l.debit_amount
    credit_amount := l.credit_amount }

/-! ## JournalService -/

/-- `JournalService._generate_entry_number`: count the entries whose creation
timestamp falls in the current calendar year and format
`JE-<year>-<count+1:05d>`. -/
def generateEntryNumber (db : DB) (now : Timestamp) : String :=
  let current_year := now.year
  let count := (db.entries.filter (fun e => e.created_at.year == current_year)).length
  fmtEntryNumber current_year (count + 1)

/-- `JournalService.create_journal_entry`.  The Python code generates the
number, computes and checks the totals, inserts the entry row, then validates
each line's account while inserting the lines, committing at the end; any
raise triggers `db.rollback()`, so the net effect is the all-or-nothing
function below (the first invalid line's account id is the one reported). -/
def create_journal_entry (db : DB) (now : Timestamp) (entry : JournalEntryCreate) :
    Except JErr (DB × JournalEntry) :=
  let entry_number := generateEntryNumber db now
  let total_debits := sumDebits entry.journal_lines
  let total_credits := sumCredits entry.journal_lines
  let is_balanced := total_debits == total_credits
  if !is_balanced then .error (.Unbalanced total_debits total_credits)
  else
    match firstInvalidAccount db entry.journal_lines with
    | some aid => .error (.InvalidAccount aid)
    | none =>
      let eid := db.nextEntryId
      let e : JournalEntry :=
        { id := eid
          entry_number := entry_number
          entry_date := entry.entry_date
          reference := entry.reference
          description := entry.description
          entry_type := entry.entry_type
          status := .Draft
          total_debits := total_debits
          total_credits := total_credits
          is_balanced := is_balanced
          posted_at := none
          posted_by := none
          created_at := now
          updated_at := now
          journal_lines := entry.journal_lines.map (toLine eid) }
      .ok ({ db with entries := db.entries ++ [e], nextEntryId := eid + 1 }, e)

/-- The scalar-field part of `update_journal_entry`: `setattr` for every
supplied field other than `journal_lines` (the update model has no `status`,
`entry_number` or `created_at` fields, so those can never change). -/
def applyEntryScalars (e : JournalEntry) (u : JournalEntryUpdate) : JournalEntry :=
  { e with
    entry_date := u.entry_date.getD e.entry_date
    reference := u.reference.getD e.reference
    description := u.description.getD e.description
    entry_type := u.entry_type.getD e.entry_type }

/-- The replacement entry value built by `update_journal_entry` for the
matched row. -/
def applyEntryUpdate (now : Timestamp) (u : JournalEntryUpdate) (eid : Nat)
    (e : JournalEntry) : JournalEntry :=
  let e1 := applyEntryScalars e u
  match u.journal_lines with
  | none => { e1 with updated_at := now }
  | some ls =>
    let total_debits := sumDebits ls
    let total_credits := sumCredits ls
    { e1 with
      journal_lines := ls.map (toLine eid)
      total_debits := total_debits
      total_credits := total_credits
      is_balanced := total_debits == total_credits
      updated_at := now }

/-- `JournalService.update_journal_entry`.  Returns `ok none` when no row has
the id (Python returns `None`); raises `ImmutablePosted` for a posted entry;
when lines are supplied, validates each line's account (raising on the first
bad one) and then the balance of the new line set; commits the scalar updates
and, when supplied, the full line replacement. -/
def update_journal_entry (db : DB) (now : Timestamp) (eid : Nat)
    (u : JournalEntryUpdate) : Except JErr (Option (DB × JournalEntry)) :=
  match findEntry db.entries eid with
  | none => .ok none
  | some e =>
    if e.status == .Posted then .error .ImmutablePosted
    else
      match u.journal_lines with
      | none =>
        let e2 := applyEntryUpdate now u eid e
        .ok (some ({ db with entries := modifyFirstEntry db.entries eid (applyEntryUpdate now u eid) }, e2))
      | some ls =>
        match firstInvalidAccount db ls with
        | some aid => .error (.InvalidAccount aid)
        | none =>
          let total_debits := sumDebits ls
          let total_credits := sumCredits ls
          if !(total_debits == total_credits) then
            .error (.Unbalanced total_debits total_credits)
          else
            let e2 := applyEntryUpdate now u eid e
            .ok (some ({ db with entries := modifyFirstEntry db.entries eid (applyEntryUpdate now u eid) }, e2))

/-- The in-place mutation `post_journal_entry` performs on the matched row.
Note that `posted_by` is not among the fields it sets. -/
def postTransform (now : Timestamp) (e : JournalEntry) : JournalEntry :=
  { e with status := .Posted, posted_at := some now, updated_at := now }

/-- `JournalService.post_journal_entry`. -/
def post_journal_entry (db : DB) (now : Timestamp) (eid : Nat) : Except JErr DB :=
  match findEntry db.entries eid with
  | none => .error (.NotFound eid)
  | some e =>
    if e.status == .Posted then .error (.AlreadyPosted eid)
    else if e.status == .Void then .error (.CannotPostVoid eid)
    else if !e.is_balanced then .error (.CannotPostUnbalanced eid)
    else .ok { db with entries := modifyFirstEntry db.entries eid (postTransform now) }

/-- The in-place mutation `void_journal_entry` performs.  The `reason`
argument is accepted but never stored (the model has no void-reason column;
the code comments `TODO: Add void reason field`). -/
def voidTransform (now : Timestamp) (e : JournalEntry) : JournalEntry :=
  { e with status := .Void, updated_at := now }

/-- `JournalService.void_journal_entry`. -/
def void_journal_entry (db : DB) (now : Timestamp) (eid : Nat) (_reason : String) :
    Except JErr DB :=
  match findEntry db.entries eid with
  | none => .error (.NotFound eid)
  | some e =>
    if e.status == .Posted then .error (.CannotVoidPosted eid)
    else if e.status == .Void then .error (.AlreadyVoid eid)
    else .ok { db with entries := modifyFirstEntry db.entries eid (voidTransform now) }

/-- The reversing line built from an original line: debit and credit swapped,
description referencing the original entry number. -/
def reversingLine (origNumber : String) (l : JournalLine) : JournalLineCreate :=
  { account_id := l.account_id
    line_number := l.line_number
    description := some ("Reversal of " ++ origNumber)
    debit_amount := l.credit_amount
    credit_amount := l.debit_amount }

/-- `JournalService.create_reversing_entry`: requires the source entry to be
Posted, then delegates a `System`-typed, `REV-`-referenced entry dated
`reverse_date` to `create_journal_entry`. -/
def create_reversing_entry (db : DB) (now : Timestamp) (eid : Nat)
    (reverse_date : Int) : Except JErr (DB × JournalEntry) :=
  match findEntry db.entries eid with
  | none => .error (.NotFound eid)
  | some original =>
    if !(original.status == .Posted) then .error (.NotPosted eid)
    else
      create_journal_entry db now
        { entry_date := reverse_date
          reference := some ("REV-" ++ original.entry_number)
          description := "Reversing entry for " ++ original.entry_number
          entry_type := "System"
          journal_lines := original.journal_lines.map (reversingLine original.entry_number) }

/-! ## GeneralLedgerService -/

/-- `GeneralLedgerService.create_account`. -/
def create_account (db : DB) (c : ChartOfAccountsCreate) : Except GLErr (DB × Account) :=
  if (db.accounts.find? (fun a => a.account_code == c.account_code)).isSome then
    .error (.DuplicateCode c.account_code)
  else
    match c.parent_account_id with
    | some pid =>
      if (findAccount db.accounts pid).isNone then .error (.ParentNotFound pid)
      else
        let a : Account :=
          { id := db.nextAccountId
            account_code := c.account_code
            account_name := c.account_name
            account_type := c.account_type
            account_category := c.account_category
            parent_account_id := c.parent_account_id
            description := c.description
            is_active := c.is_active
            is_system_account := c.is_system_account
            normal_balance := c.normal_balance }
        .ok ({ db with accounts := db.accounts ++ [a], nextAccountId := db.nextAccountId + 1 }, a)
    | none =>
      let a : Account :=
        { id := db.nextAccountId
          account_code := c.account_code
          account_name := c.account_name
          account_type := c.account_type
          account_category := c.account_category
          parent_account_id := none
          description := c.description
          is_active := c.is_active
          is_system_account := c.is_system_account
          normal_balance := c.normal_balance }
      .ok ({ db with accounts := db.accounts ++ [a], nextAccountId := db.nextAccountId + 1 }, a)

/-- The `setattr` loop of `update_account`: every supplied field is applied
directly; the code performs no parent-existence or acyclicity validation. -/
def applyAccountUpdate (u : ChartOfAccountsUpdate) (a : Account) : Account :=
  { a with
    account_name := u.account_name.getD a.account_name
    account_type := u.account_type.getD a.account_type
    account_category := u.account_category.getD a.account_category
    parent_account_id := u.parent_account_id.getD a.parent_account_id
    description := u.description.getD a.description
    is_active := u.is_active.getD a.is_active
    normal_balance := u.normal_balance.getD a.normal_balance }

/-- `GeneralLedgerService.update_account`: `None` for an unknown id, otherwise
applies the supplied fields unconditionally and commits. -/
def update_account (db : DB) (aid : Nat) (u : ChartOfAccountsUpdate) :
    Option (DB × Account) :=
  match findAccount db.accounts aid with
  | none => none
  | some a =>
    let a2 := applyAccountUpdate u a
    some ({ db with accounts := modifyFirstAccount db.accounts aid (applyAccountUpdate u) }, a2)

/-- `GeneralLedgerService.delete_account` (soft delete): `ok (db, false)` for
an unknown id, `HasActiveChildren` if any active account points at it,
otherwise clears `is_active`. -/
def delete_account (db : DB) (aid : Nat) : Except GLErr (DB × Bool) :=
  match findAccount db.accounts aid with
  | none => .ok (db, false)
  | some _ =>
    let child_accounts :=
      (db.accounts.filter (fun a => a.parent_account_id == some aid && a.is_active)).length
    if child_accounts > 0 then .error (.HasActiveChildren child_accounts)
    else
      .ok ({ db with accounts := modifyFirstAccount db.accounts aid (fun a => { a with is_active := false }) },
           true)

/-- The result record of `get_account_balance`. -/
structure BalanceResult where
  account_id : Nat
  account_code : String
  as_of_date : Int
  debit_balance : Int
  credit_balance : Int
  net_balance : Int
deriving DecidableEq, Repr

/-- `GeneralLedgerService.get_account_balance`.  The body is a placeholder:
after resolving the account it returns hard-coded zero balances, with the
comment `TODO: Implement actual balance calculation from journal entries`. -/
def get_account_balance (db : DB) (aid : Nat) (as_of_date : Option Int) (now : Int) :
    Except GLErr BalanceResult :=
  match findAccount db.accounts aid with
  | none => .error (.AccountNotFound aid)
  | some a =>
    .ok { account_id := aid
          account_code := a.account_code
          as_of_date := as_of_date.getD now
          debit_balance := 0
          credit_balance := 0
          net_balance := 0 }

/-- Modelled from the spec (the source's `get_account_balance` body is an
unimplemented placeholder): sums the debit and credit amounts of all lines on
Posted entries with `entry_date ≤ asOfDate` whose `account_id` matches, and
signs the net by the account's `normal_balance`. -/
def specAccountBalance (db : DB) (aid : Nat) (as_of_date : Option Int) :
    Option (Int × Int × Int) :=
  match findAccount db.accounts aid with
  | none => none
  | some a =>
    let postedLines :=
      (db.entries.filter (fun e =>
        e.status == .Posted &&
        (match as_of_date with
         | some d => decide (e.entry_date ≤ d)
         | none => true))).flatMap (fun e => e.journal_lines)
    let myLines := postedLines.filter (fun l => l.account_id == aid)
    let debit := (myLines.map (fun l => l.debit_amount)).sum
    let credit := (myLines.map (fun l => l.credit_amount)).sum
    let net := if a.normal_balance == "Debit" then debit - credit else credit - debit
    some (debit, credit, net)

/-! ## ARService.generate_aging_report -/

/-- A row of `invoices`, restricted to the columns the aging report reads. -/
structure Invoice where
  id : Nat
  customer_id : Nat
  status : String
  due_date : Int
  total_amount : Int
  paid_amount : Int
deriving DecidableEq, Repr

/-- One aging bucket: accumulated outstanding amount and invoice count. -/
structure AgingBucket where
  amount : Int
  count : Nat
deriving DecidableEq, Repr

/-- The aging report: the five buckets plus totals. -/
structure AgingReport where
  current : AgingBucket
  days_1_30 : AgingBucket
  days_31_60 : AgingBucket
  days_61_90 : AgingBucket
  over_90 : AgingBucket
  total_outstanding : Int
  total_invoices : Nat
deriving DecidableEq, Repr

/-- The bucket classification of `generate_aging_report`:
`days_overdue = as_of_date - due_date`, then the `if/elif` chain. -/
def agingBucketIndex (days_overdue : Int) : Nat :=
  if days_overdue ≤ 0 then 0
  else if days_overdue ≤ 30 then 1
  else if days_overdue ≤ 60 then 2
  else if days_overdue ≤ 90 then 3
  else 4

/-- Adding one invoice to the accumulating report (the loop body). -/
def addInvoiceToReport (as_of_date : Int) (r : AgingReport) (i : Invoice) : AgingReport :=
  let outstanding := i.total_amount - i.paid_amount
  let days_overdue := as_of_date - i.due_date
  let r := { r with total_outstanding := r.total_outstanding + outstanding }
  match agingBucketIndex days_overdue with
  | 0 => { r with current := ⟨r.current.amount + outstanding, r.current.count + 1⟩ }
  | 1 => { r with days_1_30 := ⟨r.days_1_30.amount + outstanding, r.days_1_30.count + 1⟩ }
  | 2 => { r with days_31_60 := ⟨r.days_31_60.amount + outstanding, r.days_31_60.count + 1⟩ }
  | 3 => { r with days_61_90 := ⟨r.days_61_90.amount + outstanding, r.days_61_90.count + 1⟩ }
  | _ => { r with over_90 := ⟨r.over_90.amount + outstanding, r.over_90.count + 1⟩ }

/-- The invoice query of `generate_aging_report`: status `"Sent"`,
`due_date <= as_of_date`, `paid_amount < total_amount`, and the optional
customer filter. -/
def agingOpenInvoices (invoices : List Invoice) (as_of_date : Int)
    (customer_id : Option Nat) : List Invoice :=
  let base := invoices.filter (fun i =>
    i.status == "Sent" && decide (i.due_date ≤ as_of_date) &&
    decide (i.paid_amount < i.total_amount))
  match customer_id with
  | some c => base.filter (fun i => i.customer_id == c)
  | none => base

/-- `ARService.generate_aging_report`. -/
def generate_aging_report (invoices : List Invoice) (as_of_date : Int)
    (customer_id : Option Nat) : AgingReport :=
  let inv := agingOpenInvoices invoices as_of_date customer_id
  let r0 : AgingReport := ⟨⟨0, 0⟩, ⟨0, 0⟩, ⟨0, 0⟩, ⟨0, 0⟩, ⟨0, 0⟩, 0, 0⟩
  let r := inv.foldl (addInvoiceToReport as_of_date) r0
  { r with total_invoices := inv.length }

/-! ## Operation traces -/

/-- One call against the services (the operations the claims quantify over). -/
inductive LOp where
  | createAcc (c : ChartOfAccountsCreate)
  | updateAcc (aid : Nat) (u : ChartOfAccountsUpdate)
  | deleteAcc (aid : Nat)
  | create (now : Timestamp) (c : JournalEntryCreate)
  | update (now : Timestamp) (eid : Nat) (u : JournalEntryUpdate)
  | post (now : Timestamp) (eid : Nat)
  | void (now : Timestamp) (eid : Nat) (reason : String)
  | reverse (now : Timestamp) (eid : Nat) (reverse_date : Int)
deriving Repr

/-- The database state after one call: on any error the transaction rolls
back and the state is unchanged. -/
def applyLOp (db : DB) (op : LOp) : DB :=
  match op with
  | .createAcc c => match create_account db c with | .ok (db', _) => db' | .error _ => db
  | .updateAcc aid u => match update_account db aid u with | some (db', _) => db' | none => db
  | .deleteAcc aid => match delete_account db aid with | .ok (db', _) => db' | .error _ => db
  | .create t c => match create_journal_entry db t c with | .ok (db', _) => db' | .error _ => db
  | .update t eid u =>
    match update_journal_entry db t eid u with | .ok (some (db', _)) => db' | _ => db
  | .post t eid => match post_journal_entry db t eid with | .ok db' => db' | .error _ => db
  | .void t eid r => match void_journal_entry db t eid r with | .ok db' => db' | .error _ => db
  | .reverse t eid d =>
    match create_reversing_entry db t eid d with | .ok (db', _) => db' | .error _ => db

/-- Running a sequence of calls. -/
def runOps (db : DB) (ops : List LOp) : DB := ops.foldl applyLOp db

/-- Value of a little-endian digit list. -/
def decDigitsVal (l : List Nat) : Nat := l.foldr (fun d acc => d + 10 * acc) 0

/-- The entry-number/creation-year view of an entry, the data the numbering
invariant is about. -/
def entryMeta (e : JournalEntry) : String × Nat := (e.entry_number, e.created_at.year)

/-- Count of pairs carrying creation year `y`. -/
def cntY (m : List (String × Nat)) (y : Nat) : Nat :=
  (m.filter (fun p => p.2 == y)).length

/-- Numbering invariant: each entry's number is the formatted count of
same-creation-year predecessors plus one. -/
def numbersOK (m : List (String × Nat)) : Prop :=
  ∀ j (h : j < m.length),
    (m.get ⟨j, h⟩).1 =
      fmtEntryNumber (m.get ⟨j, h⟩).2 (cntY (m.take j) (m.get ⟨j, h⟩).2 + 1)

/-- One status transition of the journal-entry lifecycle: stay put, or move
`Draft → Posted` / `Draft → Void`.  The relation is transitively closed, so it
also describes reachability over whole operation sequences. -/
def statusStep (s t : EntryStatus) : Prop :=
  s = t ∨ (s = .Draft ∧ (t = .Posted ∨ t = .Void))

/-- Outstanding amount of an invoice. -/
def outstandingOf (i : Invoice) : Int := i.total_amount - i.paid_amount

/-- Per-bucket aggregation as the specification words it: the outstanding
amount and count accumulated over the open items the predicate classifies
into the bucket. -/
def bucketAgg (p : Invoice → Bool) (l : List Invoice) : AgingBucket :=
  ⟨((l.filter p).map outstandingOf).sum, (l.filter p).length⟩

/-- A concrete trace: two entry creations in calendar year 2024. -/
def twoCreates2024 : List LOp :=
  [LOp.create ⟨2024, 0⟩ ⟨10, none, "first entry", "Manual", []⟩,
   LOp.create ⟨2024, 1⟩ ⟨11, none, "second entry", "Manual", []⟩]

/-- A posted entry used in concrete scenarios. -/
def ePostedW : JournalEntry :=
  { id := 1, entry_number := "JE-2023-00001", entry_date := 1, reference := none
    description := "posted", entry_type := "Manual", status := .Posted
    total_debits := 100, total_credits := 100, is_balanced := true
    posted_at := some ⟨2023, 5⟩, posted_by := none
    created_at := ⟨2023, 0⟩, updated_at := ⟨2023, 5⟩, journal_lines := [] }

/-- A voided entry used in concrete scenarios. -/
def eVoidW : JournalEntry :=
  { id := 2, entry_number := "JE-2023-00002", entry_date := 2, reference := none
    description := "voided", entry_type := "Manual", status := .Void
    total_debits := 0, total_credits := 0, is_balanced := true
    posted_at := none, posted_by := none
    created_at := ⟨2023, 1⟩, updated_at := ⟨2023, 6⟩, journal_lines := [] }

/-- A database holding one Posted and one Void entry. -/
def dbPV : DB := ⟨[], [ePostedW, eVoidW], 1, 3⟩

/-- The entry the create in `entry_status_machine_witness` produces. -/
def eNewW : JournalEntry :=
  { id := 3, entry_number := "JE-2024-00001", entry_date := 5, reference := none
    description := "new", entry_type := "Manual", status := .Draft
    total_debits := 0, total_credits := 0, is_balanced := true
    posted_at := none, posted_by := none
    created_at := ⟨2024, 0⟩, updated_at := ⟨2024, 0⟩, journal_lines := [] }

/-- An active account with id 1. -/
def accActiveW : Account :=
  { id := 1, account_code := "1000", account_name := "Cash", account_type := "Asset"
    account_category := "Current Assets", parent_account_id := none, description := none
    is_active := true, is_system_account := false, normal_balance := "Debit" }

/-- An inactive account with id 2. -/
def accInactiveW : Account :=
  { id := 2, account_code := "4000", account_name := "Sales", account_type := "Revenue"
    account_category := "Operating Revenue", parent_account_id := none, description := none
    is_active := false, is_system_account := false, normal_balance := "Credit" }

/-- A database holding the two accounts and no entries. -/
def dbAccW : DB := ⟨[accActiveW, accInactiveW], [], 3, 1⟩

/-- An unbalanced entry payload: debit 100, credit 90. -/
def ceUnbalW : JournalEntryCreate :=
  ⟨7, none, "unbalanced", "Manual", [⟨1, 1, none, 100, 0⟩, ⟨1, 2, none, 0, 90⟩]⟩

/-- A balanced payload whose first line references the inactive account 2. -/
def ceInvalidW : JournalEntryCreate :=
  ⟨7, none, "bad account", "Manual", [⟨2, 1, none, 100, 0⟩, ⟨1, 2, none, 0, 100⟩]⟩

/-- A balanced payload over the active account. -/
def ceOkW : JournalEntryCreate :=
  ⟨7, none, "good", "Manual", [⟨1, 1, none, 150, 0⟩, ⟨1, 2, none, 0, 150⟩]⟩

/-- The entry `create_journal_entry dbAccW ⟨2024, 0⟩ ceOkW` stores. -/
def eOkW : JournalEntry :=
  { id := 1, entry_number := "JE-2024-00001", entry_date := 7, reference := none
    description := "good", entry_type := "Manual", status := .Draft
    total_debits := 150, total_credits := 150, is_balanced := true
    posted_at := none, posted_by := none
    created_at := ⟨2024, 0⟩, updated_at := ⟨2024, 0⟩
    journal_lines := [⟨1, 1, 1, none, 150, 0⟩, ⟨1, 1, 2, none, 0, 150⟩] }

/-- A balanced Draft entry with `posted_by = none`. -/
def eDraftW : JournalEntry :=
  { id := 1, entry_number := "JE-2024-00003", entry_date := 4, reference := none
    description := "draft", entry_type := "Manual", status := .Draft
    total_debits := 0, total_credits := 0, is_balanced := true
    posted_at := none, posted_by := none
    created_at := ⟨2024, 0⟩, updated_at := ⟨2024, 0⟩, journal_lines := [] }

/-- A database holding just that Draft entry. -/
def dbDraftW : DB := ⟨[], [eDraftW], 1, 2⟩

/-- The entry as stored after posting `eDraftW` at time `⟨2024, 3⟩`. -/
def ePostedResW : JournalEntry :=
  { eDraftW with status := .Posted, posted_at := some ⟨2024, 3⟩, updated_at := ⟨2024, 3⟩ }

/-- A database with the active account 1 and the Void entry `eVoidW`. -/
def dbVoidAccW : DB := ⟨[accActiveW], [eVoidW], 2, 3⟩

/-- An update payload: new date, new description, replacement line set. -/
def updVoidW : JournalEntryUpdate :=
  { entry_date := some 9, description := some "updated"
    journal_lines := some [⟨1, 1, none, 50, 0⟩, ⟨1, 2, none, 0, 50⟩] }

/-- Propositional equality on `Except` results is decidable componentwise. -/
instance {ε α : Type} [DecidableEq ε] [DecidableEq α] : DecidableEq (Except ε α) := fun x y =>
  match x, y with
  | .ok a, .ok b =>
    if h : a = b then .isTrue (by rw [h])
    else .isFalse (fun hc => h (by injection hc))
  | .error a, .error b =>
    if h : a = b then .isTrue (by rw [h])
    else .isFalse (fun hc => h (by injection hc))
  | .ok _, .error _ => .isFalse (fun hc => by injection hc)
  | .error _, .ok _ => .isFalse (fun hc => by injection hc)

/-- The operation trace for the C4 counterexample: create two accounts,
create and post a balanced entry over them, then deactivate account 1. -/
def revCounterOps : List LOp :=
  [LOp.createAcc ⟨"1000", "Cash", "Asset", "Current Assets", none, none, true, false, "Debit"⟩,
   LOp.createAcc ⟨"4000", "Sales", "Revenue", "Operating Revenue", none, none, true, false, "Credit"⟩,
   LOp.create ⟨2024, 0⟩ ⟨10, none, "sale", "Manual", [⟨1, 1, none, 100, 0⟩, ⟨2, 2, none, 0, 100⟩]⟩,
   LOp.post ⟨2024, 1⟩ 1,
   LOp.deleteAcc 1]

/-- A Posted entry over account 1 with two lines, used by the C4 witness. -/
def ePostedRevW : JournalEntry :=
  { id := 1, entry_number := "JE-2023-00007", entry_date := 3, reference := none
    description := "original", entry_type := "Manual", status := .Posted
    total_debits := 100, total_credits := 100, is_balanced := true
    posted_at := some ⟨2023, 9⟩, posted_by := none
    created_at := ⟨2023, 2⟩, updated_at := ⟨2023, 9⟩
    journal_lines := [⟨1, 1, 1, none, 100, 0⟩, ⟨1, 1, 2, none, 0, 100⟩] }

/-- A database with the active account 1 and that Posted entry. -/
def dbRevW : DB := ⟨[accActiveW], [ePostedRevW], 2, 2⟩

/-- A Posted entry with a 150.00 debit line on account 1, dated day 10. -/
def ePostedBalW : JournalEntry :=
  { id := 1, entry_number := "JE-2023-00008", entry_date := 10, reference := none
    description := "cash in", entry_type := "Manual", status := .Posted
    total_debits := 15000, total_credits := 15000, is_balanced := true
    posted_at := some ⟨2023, 9⟩, posted_by := none
    created_at := ⟨2023, 2⟩, updated_at := ⟨2023, 9⟩
    journal_lines := [⟨1, 1, 1, none, 15000, 0⟩] }

/-- The Debit-normal account 1 together with that Posted entry. -/
def dbBalW : DB := ⟨[accActiveW], [ePostedBalW], 2, 2⟩

/-- Account 1 after being made its own parent. -/
def accSelfParentW : Account := { accActiveW with parent_account_id := some 1 }

/-- Bucket predicate: not yet due / due today (`daysOverdue ≤ 0`). -/
def inCurrent (d : Int) (i : Invoice) : Bool := decide (d - i.due_date ≤ 0)

/-- Bucket predicate: 1 to 30 days overdue. -/
def in1_30 (d : Int) (i : Invoice) : Bool :=
  decide (0 < d - i.due_date) && decide (d - i.due_date ≤ 30)

/-- Bucket predicate: 31 to 60 days overdue. -/
def in31_60 (d : Int) (i : Invoice) : Bool :=
  decide (30 < d - i.due_date) && decide (d - i.due_date ≤ 60)

/-- Bucket predicate: 61 to 90 days overdue. -/
def in61_90 (d : Int) (i : Invoice) : Bool :=
  decide (60 < d - i.due_date) && decide (d - i.due_date ≤ 90)

/-- Bucket predicate: more than 90 days overdue. -/
def inOver90 (d : Int) (i : Invoice) : Bool := decide (90 < d - i.due_date)

/-- An invoice that is open but not yet due on day 100 (due day 105). -/
def invNotDueW : Invoice := ⟨1, 1, "Sent", 105, 500, 0⟩

/-! ## Lemmas: decimal rendering and `numericSuffix` -/

theorem decDigitsFuel_val : ∀ fuel n, n < fuel →
    decDigitsVal (decDigitsFuel fuel n) = n := by
  intro fuel
  induction fuel with
  | zero => intro n h; omega
  | succ fuel ih =>
    intro n h
    unfold decDigitsFuel
    by_cases h10 : n < 10
    · simp [h10, decDigitsVal]
    · have hd : n / 10 < n := Nat.div_lt_self (by omega) (by omega)
      have := ih (n / 10) (by omega)
      simp only [h10, if_false, decDigitsVal, List.foldr_cons] at *
      omega

theorem decDigitsFuel_lt : ∀ fuel n d, d ∈ decDigitsFuel fuel n → d < 10 := by
  intro fuel
  induction fuel with
  | zero => intro n d h; simp [decDigitsFuel] at h
  | succ fuel ih =>
    intro n d h
    unfold decDigitsFuel at h
    by_cases h10 : n < 10
    · simp [h10] at h; omega
    · simp only [h10, if_false, List.mem_cons] at h
      rcases h with h | h
      · omega
      · exact ih _ _ h

theorem strVal_snoc (xs : List Char) (c : Char) :
    strVal (xs ++ [c]) = 10 * strVal xs + (c.toNat - 48) := by
  simp [strVal, List.foldl_append]

theorem strVal_replicate_zero (z : Nat) (cs : List Char) :
    strVal (List.replicate z '0' ++ cs) = strVal cs := by
  induction z with
  | zero => simp
  | succ z ih =>
    have h0 : (10 * 0 + ('0'.toNat - 48)) = 0 := by decide
    simpa [strVal, List.replicate_succ, List.foldl_cons, h0] using ih

theorem digitChar_toNat : ∀ d, d < 10 → (Nat.digitChar d).toNat - 48 = d := by decide

theorem strVal_revmap : ∀ l : List Nat, (∀ d ∈ l, d < 10) →
    strVal ((l.map Nat.digitChar).reverse) = decDigitsVal l := by
  intro l
  induction l with
  | nil => intro _; simp [strVal, decDigitsVal]
  | cons d t ih =>
    intro h
    have hd : d < 10 := h d (List.mem_cons_self d t)
    have ht : ∀ x ∈ t, x < 10 := fun x hx => h x (List.mem_cons_of_mem d hx)
    have : ((d :: t).map Nat.digitChar).reverse =
        (t.map Nat.digitChar).reverse ++ [Nat.digitChar d] := by simp
    rw [this, strVal_snoc, ih ht, digitChar_toNat d hd]
    simp [decDigitsVal]
    ring

theorem strVal_decimalChars (n : Nat) : strVal (decimalChars n) = n := by
  unfold decimalChars decDigits
  rw [strVal_revmap _ (fun d hd => decDigitsFuel_lt _ _ _ hd)]
  exact decDigitsFuel_val _ n (Nat.lt_succ_self n)

theorem strVal_pad5c (n : Nat) : strVal (pad5c n) = n := by
  unfold pad5c
  rw [strVal_replicate_zero, strVal_decimalChars]

theorem digitChar_ne_dash : ∀ d, d < 10 → Nat.digitChar d ≠ '-' := by decide

theorem pad5c_no_dash (n : Nat) : ∀ c ∈ pad5c n, c ≠ '-' := by
  intro c hc
  unfold pad5c at hc
  rcases List.mem_append.mp hc with h | h
  · have := List.eq_of_mem_replicate h
    subst this; decide
  · unfold decimalChars at h
    rcases List.mem_reverse.mp h with h'
    rcases List.mem_map.mp h' with ⟨d, hd, rfl⟩
    exact digitChar_ne_dash d (decDigitsFuel_lt _ _ _ hd)

theorem takeWhile_append_all (p : Char → Bool) :
    ∀ (l1 l2 : List Char), (∀ c ∈ l1, p c = true) →
    (l1 ++ l2).takeWhile p = l1 ++ l2.takeWhile p := by
  intro l1
  induction l1 with
  | nil => intro l2 _; simp
  | cons c t ih =>
    intro l2 h
    have hc : p c = true := h c (List.mem_cons_self c t)
    simp only [List.cons_append, List.takeWhile_cons, hc, if_true]
    rw [ih l2 (fun x hx => h x (List.mem_cons_of_mem c hx))]

theorem numericSuffix_fmt (y q : Nat) : numericSuffix (fmtEntryNumber y q) = q := by
  unfold numericSuffix fmtEntryNumber
  have hdata : (String.mk (['J', 'E', '-'] ++ decimalChars y ++ ['-'] ++ pad5c q)).data
      = ['J', 'E', '-'] ++ decimalChars y ++ ['-'] ++ pad5c q := rfl
  rw [hdata]
  have hrev : (['J', 'E', '-'] ++ decimalChars y ++ ['-'] ++ pad5c q).reverse
      = (pad5c q).reverse ++ ('-' :: ((decimalChars y).reverse ++ ['-', 'E', 'J'])) := by
    simp
  rw [hrev]
  rw [takeWhile_append_all _ _ _ (by
    intro c hc
    have := pad5c_no_dash q c (List.mem_reverse.mp hc)
    simpa using this)]
  have : List.takeWhile (fun c => c ≠ '-')
      ('-' :: ((decimalChars y).reverse ++ ['-', 'E', 'J'])) = [] := by
    simp [List.takeWhile_cons]
  rw [this, List.append_nil, List.reverse_reverse, strVal_pad5c]

/-! ## Lemmas: list helpers for `findEntry` / `modifyFirstEntry` -/

/-! ## Lemmas: list helpers for `findEntry` / `modifyFirstEntry` -/

theorem findEntry_nil (eid : Nat) : findEntry [] eid = none := rfl

theorem findEntry_cons (a : JournalEntry) (t : List JournalEntry) (eid : Nat) :
    findEntry (a :: t) eid = if a.id == eid then some a else findEntry t eid := by
  unfold findEntry
  rw [List.find?_cons]
  cases h : (a.id == eid) <;> simp [h]

theorem modifyFirstEntry_nil (eid : Nat) (g : JournalEntry → JournalEntry) :
    modifyFirstEntry [] eid g = [] := rfl

theorem modifyFirstEntry_cons (a : JournalEntry) (t : List JournalEntry) (eid : Nat)
    (g : JournalEntry → JournalEntry) :
    modifyFirstEntry (a :: t) eid g =
      if a.id == eid then g a :: t else a :: modifyFirstEntry t eid g := rfl

theorem findEntry_append_left {l : List JournalEntry} {eid : Nat} {e : JournalEntry}
    (h : findEntry l eid = some e) (x : JournalEntry) :
    findEntry (l ++ [x]) eid = some e := by
  induction l with
  | nil => simp [findEntry_nil] at h
  | cons a t ih =>
    rw [findEntry_cons] at h
    rw [List.cons_append, findEntry_cons]
    by_cases ha : (a.id == eid) = true
    · simpa [ha] using h
    · rw [if_neg ha] at h ⊢
      exact ih h

theorem findEntry_append_none {l : List JournalEntry} {eid : Nat}
    (h : findEntry l eid = none) (x : JournalEntry) :
    findEntry (l ++ [x]) eid = if x.id == eid then some x else none := by
  induction l with
  | nil => simp [findEntry_cons, findEntry_nil]
  | cons a t ih =>
    rw [findEntry_cons] at h
    by_cases ha : (a.id == eid) = true
    · simp [ha] at h
    · rw [if_neg ha] at h
      rw [List.cons_append, findEntry_cons, if_neg ha]
      exact ih h

theorem findEntry_modifyFirst_self {l : List JournalEntry} {eid : Nat}
    {g : JournalEntry → JournalEntry} (hg : ∀ x, (g x).id = x.id) :
    findEntry (modifyFirstEntry l eid g) eid = (findEntry l eid).map g := by
  induction l with
  | nil => simp [findEntry_nil, modifyFirstEntry_nil]
  | cons a t ih =>
    rw [modifyFirstEntry_cons]
    by_cases ha : (a.id == eid) = true
    · rw [if_pos ha, findEntry_cons, findEntry_cons]
      have : ((g a).id == eid) = true := by rw [hg a]; exact ha
      rw [if_pos this, if_pos ha]
      rfl
    · rw [if_neg ha, findEntry_cons, findEntry_cons, if_neg ha, if_neg ha]
      exact ih

theorem findEntry_modifyFirst_other {l : List JournalEntry} {eid i : Nat}
    {g : JournalEntry → JournalEntry} (hg : ∀ x, (g x).id = x.id) (hne : i ≠ eid) :
    findEntry (modifyFirstEntry l eid g) i = findEntry l i := by
  induction l with
  | nil => simp [findEntry_nil, modifyFirstEntry_nil]
  | cons a t ih =>
    rw [modifyFirstEntry_cons]
    by_cases ha : (a.id == eid) = true
    · have haid : a.id = eid := by simpa using ha
      have h1 : (a.id == i) = false := by
        simp only [beq_eq_false_iff_ne, ne_eq, haid]
        omega
      have h2 : ((g a).id == i) = false := by rw [hg a]; exact h1
      rw [if_pos ha, findEntry_cons, findEntry_cons, h1, h2]
      simp
    · rw [if_neg ha, findEntry_cons, findEntry_cons]
      by_cases hai : (a.id == i) = true
      · rw [if_pos hai, if_pos hai]
      · rw [if_neg hai, if_neg hai]
        exact ih

theorem map_entryMeta_modifyFirst {l : List JournalEntry} {eid : Nat}
    {g : JournalEntry → JournalEntry}
    (hg : ∀ x, (g x).entry_number = x.entry_number ∧ (g x).created_at = x.created_at) :
    (modifyFirstEntry l eid g).map entryMeta = l.map entryMeta := by
  induction l with
  | nil => rfl
  | cons a t ih =>
    rw [modifyFirstEntry_cons]
    by_cases ha : (a.id == eid) = true
    · rw [if_pos ha, List.map_cons, List.map_cons]
      have : entryMeta (g a) = entryMeta a := by
        unfold entryMeta
        rw [(hg a).1, (hg a).2]
      rw [this]
    · rw [if_neg ha, List.map_cons, List.map_cons, ih]

/-! ## Lemmas: inversion of the service operations -/

theorem firstInvalid_none_iff (db : DB) : ∀ ls : List JournalLineCreate,
    firstInvalidAccount db ls = none ↔ ∀ l ∈ ls, accountValid db l.account_id = true := by
  intro ls
  induction ls with
  | nil => simp [firstInvalidAccount]
  | cons l t ih =>
    unfold firstInvalidAccount
    by_cases hv : accountValid db l.account_id
    · simp [hv, ih]
    · simp only [hv, if_false]
      constructor
      · intro h; exact absurd h (by simp)
      · intro h
        exact absurd (h l (List.mem_cons_self l t)) (by simpa using hv)

theorem firstInvalid_some_of_exists (db : DB) : ∀ ls : List JournalLineCreate,
    (∃ l ∈ ls, accountValid db l.account_id = false) →
    ∃ aid, firstInvalidAccount db ls = some aid ∧
      (∃ l ∈ ls, l.account_id = aid) ∧ accountValid db aid = false := by
  intro ls
  induction ls with
  | nil => rintro ⟨l, hl, _⟩; simp at hl
  | cons l t ih =>
    rintro ⟨x, hx, hxv⟩
    unfold firstInvalidAccount
    by_cases hv : accountValid db l.account_id
    · have hxt : x ∈ t := by
        rcases List.mem_cons.mp hx with rfl | h
        · rw [hxv] at hv; exact absurd hv (by simp)
        · exact h
      rcases ih ⟨x, hxt, hxv⟩ with ⟨aid, h1, ⟨y, hy, hy2⟩, h3⟩
      exact ⟨aid, by simp [hv, h1], ⟨y, List.mem_cons_of_mem l hy, hy2⟩, h3⟩
    · exact ⟨l.account_id, by simp [hv], ⟨l, List.mem_cons_self l t, rfl⟩, by simpa using hv⟩

theorem create_journal_entry_ok {db db' : DB} {now : Timestamp}
    {c : JournalEntryCreate} {e : JournalEntry}
    (h : create_journal_entry db now c = .ok (db', e)) :
    db'.entries = db.entries ++ [e] ∧ db'.accounts = db.accounts ∧
    e.status = .Draft ∧ e.created_at = now ∧
    e.entry_number = generateEntryNumber db now ∧
    e.total_debits = sumDebits c.journal_lines ∧
    e.total_credits = sumCredits c.journal_lines ∧
    e.entry_date = c.entry_date ∧ e.reference = c.reference ∧
    e.entry_type = c.entry_type ∧ e.posted_by = none ∧
    e.id = db.nextEntryId ∧
    e.journal_lines = c.journal_lines.map (toLine db.nextEntryId) := by
  unfold create_journal_entry at h
  by_cases hbal : (sumDebits c.journal_lines == sumCredits c.journal_lines) = true
  · simp only [hbal, Bool.not_true] at h
    rw [if_neg (by simp)] at h
    cases hval : firstInvalidAccount db c.journal_lines with
    | some aid => rw [hval] at h; exact absurd h (by simp)
    | none =>
      rw [hval] at h
      simp only [Except.ok.injEq, Prod.mk.injEq] at h
      obtain ⟨h1, h2⟩ := h
      subst h1; subst h2
      exact ⟨rfl, rfl, rfl, rfl, rfl, rfl, rfl, rfl, rfl, rfl, rfl, rfl, rfl⟩
  · simp only [Bool.not_eq_true] at hbal
    simp only [hbal, Bool.not_false] at h
    rw [if_pos trivial] at h
    exact absurd h (by simp)

theorem create_journal_entry_balanced {db : DB} {now : Timestamp}
    {c : JournalEntryCreate} {db' : DB} {e : JournalEntry}
    (h : create_journal_entry db now c = .ok (db', e)) :
    sumDebits c.journal_lines = sumCredits c.journal_lines ∧
    firstInvalidAccount db c.journal_lines = none := by
  unfold create_journal_entry at h
  by_cases hbal : (sumDebits c.journal_lines == sumCredits c.journal_lines) = true
  · refine ⟨by simpa using hbal, ?_⟩
    cases hval : firstInvalidAccount db c.journal_lines with
    | some aid =>
      simp only [hbal, Bool.not_true] at h
      rw [if_neg (by simp), hval] at h
      exact absurd h (by simp)
    | none => rfl
  · simp only [Bool.not_eq_true] at hbal
    simp only [hbal, Bool.not_false] at h
    rw [if_pos trivial] at h
    exact absurd h (by simp)

theorem create_journal_entry_err_unbalanced {db : DB} {now : Timestamp}
    {c : JournalEntryCreate}
    (h : sumDebits c.journal_lines ≠ sumCredits c.journal_lines) :
    create_journal_entry db now c =
      .error (.Unbalanced (sumDebits c.journal_lines) (sumCredits c.journal_lines)) := by
  unfold create_journal_entry
  have hb : (sumDebits c.journal_lines == sumCredits c.journal_lines) = false := by
    simpa using h
  simp only [hb, Bool.not_false]
  rw [if_pos trivial]

theorem create_journal_entry_ok_of_valid {db : DB} {now : Timestamp}
    {c : JournalEntryCreate}
    (hbal : sumDebits c.journal_lines = sumCredits c.journal_lines)
    (hval : firstInvalidAccount db c.journal_lines = none) :
    create_journal_entry db now c = .ok
      ({ db with
          entries := db.entries ++
            [{ id := db.nextEntryId
               entry_number := generateEntryNumber db now
               entry_date := c.entry_date
               reference := c.reference
               description := c.description
               entry_type := c.entry_type
               status := .Draft
               total_debits := sumDebits c.journal_lines
               total_credits := sumCredits c.journal_lines
               is_balanced := sumDebits c.journal_lines == sumCredits c.journal_lines
               posted_at := none
               posted_by := none
               created_at := now
               updated_at := now
               journal_lines := c.journal_lines.map (toLine db.nextEntryId) }]
          nextEntryId := db.nextEntryId + 1 },
       { id := db.nextEntryId
         entry_number := generateEntryNumber db now
         entry_date := c.entry_date
         reference := c.reference
         description := c.description
         entry_type := c.entry_type
         status := .Draft
         total_debits := sumDebits c.journal_lines
         total_credits := sumCredits c.journal_lines
         is_balanced := sumDebits c.journal_lines == sumCredits c.journal_lines
         posted_at := none
         posted_by := none
         created_at := now
         updated_at := now
         journal_lines := c.journal_lines.map (toLine db.nextEntryId) }) := by
  unfold create_journal_entry
  have hb : (sumDebits c.journal_lines == sumCredits c.journal_lines) = true := by
    simpa using hbal
  simp only [hb, Bool.not_true]
  rw [if_neg (by simp), hval]

theorem applyEntryUpdate_meta (now : Timestamp) (u : JournalEntryUpdate) (eid : Nat)
    (x : JournalEntry) :
    (applyEntryUpdate now u eid x).id = x.id ∧
    (applyEntryUpdate now u eid x).status = x.status ∧
    (applyEntryUpdate now u eid x).entry_number = x.entry_number ∧
    (applyEntryUpdate now u eid x).created_at = x.created_at ∧
    (applyEntryUpdate now u eid x).posted_at = x.posted_at ∧
    (applyEntryUpdate now u eid x).posted_by = x.posted_by := by
  unfold applyEntryUpdate applyEntryScalars
  cases u.journal_lines <;> exact ⟨rfl, rfl, rfl, rfl, rfl, rfl⟩

theorem post_journal_entry_ok {db db' : DB} {now : Timestamp} {eid : Nat}
    (h : post_journal_entry db now eid = .ok db') :
    ∃ e, findEntry db.entries eid = some e ∧ e.status = .Draft ∧ e.is_balanced = true ∧
      db'.entries = modifyFirstEntry db.entries eid (postTransform now) ∧
      db'.accounts = db.accounts := by
  unfold post_journal_entry at h
  cases hf : findEntry db.entries eid with
  | none => simp only [hf] at h; exact absurd h (by simp)
  | some e =>
    simp only [hf] at h
    by_cases h1 : (e.status == EntryStatus.Posted) = true
    · rw [if_pos h1] at h; exact absurd h (by simp)
    · rw [if_neg h1] at h
      by_cases h2 : (e.status == EntryStatus.Void) = true
      · rw [if_pos h2] at h; exact absurd h (by simp)
      · rw [if_neg h2] at h
        by_cases h3 : e.is_balanced = true
        · rw [h3] at h
          simp only [Bool.not_true] at h
          rw [if_neg (by simp)] at h
          have hst : e.status = .Draft := by
            cases hs : e.status
            · rfl
            · rw [hs] at h1; simp at h1
            · rw [hs] at h2; simp at h2
          simp only [Except.ok.injEq] at h
          refine ⟨e, rfl, hst, h3, ?_, ?_⟩
          · rw [← h]
          · rw [← h]
        · simp only [Bool.not_eq_true] at h3
          rw [h3] at h
          simp only [Bool.not_false] at h
          rw [if_pos trivial] at h
          exact absurd h (by simp)

theorem void_journal_entry_ok {db db' : DB} {now : Timestamp} {eid : Nat} {r : String}
    (h : void_journal_entry db now eid r = .ok db') :
    ∃ e, findEntry db.entries eid = some e ∧ e.status = .Draft ∧
      db'.entries = modifyFirstEntry db.entries eid (voidTransform now) ∧
      db'.accounts = db.accounts := by
  unfold void_journal_entry at h
  cases hf : findEntry db.entries eid with
  | none => simp only [hf] at h; exact absurd h (by simp)
  | some e =>
    simp only [hf] at h
    by_cases h1 : (e.status == EntryStatus.Posted) = true
    · rw [if_pos h1] at h; exact absurd h (by simp)
    · rw [if_neg h1] at h
      by_cases h2 : (e.status == EntryStatus.Void) = true
      · rw [if_pos h2] at h; exact absurd h (by simp)
      · rw [if_neg h2] at h
        have hst : e.status = .Draft := by
          cases hs : e.status
          · rfl
          · rw [hs] at h1; simp at h1
          · rw [hs] at h2; simp at h2
        simp only [Except.ok.injEq] at h
        refine ⟨e, rfl, hst, ?_, ?_⟩
        · rw [← h]
        · rw [← h]

theorem update_journal_entry_ok {db db' : DB} {now : Timestamp} {eid : Nat}
    {u : JournalEntryUpdate} {e2 : JournalEntry}
    (h : update_journal_entry db now eid u = .ok (some (db', e2))) :
    ∃ e, findEntry db.entries eid = some e ∧ (e.status == EntryStatus.Posted) = false ∧
      e2 = applyEntryUpdate now u eid e ∧
      db'.entries = modifyFirstEntry db.entries eid (applyEntryUpdate now u eid) ∧
      db'.accounts = db.accounts := by
  unfold update_journal_entry at h
  cases hf : findEntry db.entries eid with
  | none => simp only [hf] at h; exact absurd h (by simp)
  | some e =>
    simp only [hf] at h
    by_cases h1 : (e.status == EntryStatus.Posted) = true
    · rw [if_pos h1] at h; exact absurd h (by simp)
    · rw [if_neg h1] at h
      cases hls : u.journal_lines with
      | none =>
        simp only [hls] at h
        simp only [Except.ok.injEq, Option.some.injEq, Prod.mk.injEq] at h
        obtain ⟨hdb, he⟩ := h
        exact ⟨e, rfl, by simpa using h1, he.symm, by rw [← hdb], by rw [← hdb]⟩
      | some ls =>
        simp only [hls] at h
        cases hval : firstInvalidAccount db ls with
        | some aid => simp only [hval] at h; exact absurd h (by simp)
        | none =>
          simp only [hval] at h
          by_cases hb : (sumDebits ls == sumCredits ls) = true
          · rw [hb] at h
            simp only [Bool.not_true] at h
            rw [if_neg (by simp)] at h
            simp only [Except.ok.injEq, Option.some.injEq, Prod.mk.injEq] at h
            obtain ⟨hdb, he⟩ := h
            exact ⟨e, rfl, by simpa using h1, he.symm, by rw [← hdb], by rw [← hdb]⟩
          · simp only [Bool.not_eq_true] at hb
            rw [hb] at h
            simp only [Bool.not_false] at h
            rw [if_pos trivial] at h
            exact absurd h (by simp)

theorem create_reversing_entry_ok {db db' : DB} {now : Timestamp} {eid : Nat}
    {rd : Int} {r : JournalEntry}
    (h : create_reversing_entry db now eid rd = .ok (db', r)) :
    ∃ e, findEntry db.entries eid = some e ∧ e.status = .Posted ∧
      create_journal_entry db now
        { entry_date := rd
          reference := some ("REV-" ++ e.entry_number)
          description := "Reversing entry for " ++ e.entry_number
          entry_type := "System"
          journal_lines := e.journal_lines.map (reversingLine e.entry_number) } = .ok (db', r) := by
  unfold create_reversing_entry at h
  cases hf : findEntry db.entries eid with
  | none => simp only [hf] at h; exact absurd h (by simp)
  | some e =>
    simp only [hf] at h
    by_cases h1 : (e.status == EntryStatus.Posted) = true
    · rw [h1] at h
      simp only [Bool.not_true] at h
      rw [if_neg (by simp)] at h
      exact ⟨e, rfl, by simpa using h1, h⟩
    · simp only [Bool.not_eq_true] at h1
      rw [h1] at h
      simp only [Bool.not_false] at h
      rw [if_pos trivial] at h
      exact absurd h (by simp)

theorem create_account_entries {db db' : DB} {c : ChartOfAccountsCreate} {a : Account}
    (h : create_account db c = .ok (db', a)) : db'.entries = db.entries := by
  unfold create_account at h
  split at h
  · exact absurd h (by simp)
  · split at h
    · split at h
      · exact absurd h (by simp)
      · simp only [Except.ok.injEq, Prod.mk.injEq] at h
        rw [← h.1]
    · simp only [Except.ok.injEq, Prod.mk.injEq] at h
      rw [← h.1]

theorem update_account_entries {db db' : DB} {aid : Nat} {u : ChartOfAccountsUpdate}
    {a : Account} (h : update_account db aid u = some (db', a)) :
    db'.entries = db.entries := by
  unfold update_account at h
  split at h
  · exact absurd h (by simp)
  · simp only [Option.some.injEq, Prod.mk.injEq] at h
    rw [← h.1]

theorem delete_account_entries {db db' : DB} {aid : Nat} {b : Bool}
    (h : delete_account db aid = .ok (db', b)) : db'.entries = db.entries := by
  unfold delete_account at h
  cases hfa : findAccount db.accounts aid with
  | none =>
    simp only [hfa, Except.ok.injEq, Prod.mk.injEq] at h
    rw [← h.1]
  | some a =>
    simp only [hfa] at h
    split at h
    · exact absurd h (by simp)
    · simp only [Except.ok.injEq, Prod.mk.injEq] at h
      rw [← h.1]

/-! ## The shape of one operation's effect on the entries table -/

theorem postTransform_meta (now : Timestamp) (x : JournalEntry) :
    (postTransform now x).id = x.id ∧
    (postTransform now x).entry_number = x.entry_number ∧
    (postTransform now x).created_at = x.created_at := ⟨rfl, rfl, rfl⟩

theorem voidTransform_meta (now : Timestamp) (x : JournalEntry) :
    (voidTransform now x).id = x.id ∧
    (voidTransform now x).entry_number = x.entry_number ∧
    (voidTransform now x).created_at = x.created_at := ⟨rfl, rfl, rfl⟩

theorem applyLOp_entries_cases (db : DB) (op : LOp) :
    (applyLOp db op).entries = db.entries
  ∨ (∃ now e, e.created_at = now ∧ e.status = .Draft ∧
        e.entry_number = generateEntryNumber db now ∧
        (applyLOp db op).entries = db.entries ++ [e])
  ∨ (∃ eid g e0, findEntry db.entries eid = some e0 ∧
        (∀ x : JournalEntry, (g x).id = x.id ∧ (g x).entry_number = x.entry_number ∧
          (g x).created_at = x.created_at) ∧
        statusStep e0.status (g e0).status ∧
        (applyLOp db op).entries = modifyFirstEntry db.entries eid g) := by
  cases op with
  | createAcc c =>
    left
    cases h : create_account db c with
    | ok p =>
      obtain ⟨db2, a2⟩ := p
      simp only [applyLOp, h]
      exact create_account_entries h
    | error _ => simp only [applyLOp, h]
  | updateAcc aid u =>
    left
    cases h : update_account db aid u with
    | some p =>
      obtain ⟨db2, a2⟩ := p
      simp only [applyLOp, h]
      exact update_account_entries h
    | none => simp only [applyLOp, h]
  | deleteAcc aid =>
    left
    cases h : delete_account db aid with
    | ok p =>
      obtain ⟨db2, b2⟩ := p
      simp only [applyLOp, h]
      exact delete_account_entries h
    | error _ => simp only [applyLOp, h]
  | create t c =>
    cases h : create_journal_entry db t c with
    | error _ => left; simp only [applyLOp, h]
    | ok p =>
      obtain ⟨db2, e2⟩ := p
      right; left
      obtain ⟨h1, _, h3, h4, h5, _⟩ := create_journal_entry_ok h
      simp only [applyLOp, h]
      exact ⟨t, e2, h4, h3, h5, h1⟩
  | update t eid u =>
    cases h : update_journal_entry db t eid u with
    | error _ => left; simp only [applyLOp, h]
    | ok o =>
      cases o with
      | none => left; simp only [applyLOp, h]
      | some p =>
        obtain ⟨db2, e2⟩ := p
        right; right
        obtain ⟨e, hf, hpost, _, hent, _⟩ := update_journal_entry_ok h
        simp only [applyLOp, h]
        refine ⟨eid, applyEntryUpdate t u eid, e, hf, ?_, ?_, hent⟩
        · intro x
          obtain ⟨a, _, b, c', _, _⟩ := applyEntryUpdate_meta t u eid x
          exact ⟨a, b, c'⟩
        · left
          exact ((applyEntryUpdate_meta t u eid e).2.1).symm
  | post t eid =>
    cases h : post_journal_entry db t eid with
    | error _ => left; simp only [applyLOp, h]
    | ok db2 =>
      right; right
      obtain ⟨e, hf, hst, _, hent, _⟩ := post_journal_entry_ok h
      simp only [applyLOp, h]
      refine ⟨eid, postTransform t, e, hf, postTransform_meta t, ?_, hent⟩
      right
      exact ⟨hst, Or.inl rfl⟩
  | void t eid r =>
    cases h : void_journal_entry db t eid r with
    | error _ => left; simp only [applyLOp, h]
    | ok db2 =>
      right; right
      obtain ⟨e, hf, hst, hent, _⟩ := void_journal_entry_ok h
      simp only [applyLOp, h]
      refine ⟨eid, voidTransform t, e, hf, voidTransform_meta t, ?_, hent⟩
      right
      exact ⟨hst, Or.inr rfl⟩
  | reverse t eid rd =>
    cases h : create_reversing_entry db t eid rd with
    | error _ => left; simp only [applyLOp, h]
    | ok p =>
      obtain ⟨db2, r2⟩ := p
      right; left
      obtain ⟨e, _, _, hc⟩ := create_reversing_entry_ok h
      obtain ⟨h1, _, h3, h4, h5, _⟩ := create_journal_entry_ok hc
      simp only [applyLOp, h]
      exact ⟨t, r2, h4, h3, h5, h1⟩

/-! ## The numbering invariant (claim C7) -/

theorem length_filter_map_meta (l : List JournalEntry) (y : Nat) :
    ((l.map entryMeta).filter (fun p => p.2 == y)).length =
    (l.filter (fun e => e.created_at.year == y)).length := by
  induction l with
  | nil => rfl
  | cons a t ih =>
    simp only [List.map_cons, List.filter_cons]
    by_cases h : (a.created_at.year == y) = true
    · have h2 : ((entryMeta a).2 == y) = true := h
      simp only [h, h2, if_true, List.length_cons, ih]
    · have h2 : ((entryMeta a).2 == y) = false := by
        rw [show (entryMeta a).2 = a.created_at.year from rfl]
        simpa using h
      simp only [h, h2, Bool.false_eq_true, if_false, ih]

theorem generateEntryNumber_eq (db : DB) (now : Timestamp) :
    generateEntryNumber db now =
      fmtEntryNumber now.year (cntY (db.entries.map entryMeta) now.year + 1) := by
  unfold generateEntryNumber cntY
  rw [length_filter_map_meta]

theorem cntY_append (A B : List (String × Nat)) (y : Nat) :
    cntY (A ++ B) y = cntY A y + cntY B y := by
  simp [cntY, List.filter_append]

theorem cntY_take_le (m : List (String × Nat)) (k y : Nat) :
    cntY (m.take k) y ≤ cntY m y := by
  conv_rhs => rw [← List.take_append_drop k m]
  rw [cntY_append]
  omega

theorem get_append_last (m : List (String × Nat)) (x : String × Nat)
    (h : m.length < (m ++ [x]).length) : (m ++ [x]).get ⟨m.length, h⟩ = x := by
  induction m with
  | nil => rfl
  | cons a t ih => exact ih (by simp)

theorem numbersOK_append (m : List (String × Nat)) (y : Nat) (h : numbersOK m) :
    numbersOK (m ++ [(fmtEntryNumber y (cntY m y + 1), y)]) := by
  intro j hj
  by_cases hlt : j < m.length
  · have hget : (m ++ [(fmtEntryNumber y (cntY m y + 1), y)]).get ⟨j, hj⟩ =
        m.get ⟨j, hlt⟩ := List.get_append j hlt
    have htake : (m ++ [(fmtEntryNumber y (cntY m y + 1), y)]).take j = m.take j := by
      rw [List.take_append_eq_append_take, Nat.sub_eq_zero_of_le (by omega),
        List.take_zero, List.append_nil]
    rw [hget, htake]
    exact h j hlt
  · have hj' : j = m.length := by
      simp only [List.length_append, List.length_singleton] at hj
      omega
    subst hj'
    have hget : (m ++ [(fmtEntryNumber y (cntY m y + 1), y)]).get ⟨m.length, hj⟩ =
        (fmtEntryNumber y (cntY m y + 1), y) := get_append_last m _ hj
    have htake : (m ++ [(fmtEntryNumber y (cntY m y + 1), y)]).take m.length = m := by
      rw [List.take_append_eq_append_take, Nat.sub_self, List.take_zero,
        List.append_nil, List.take_length]
    rw [hget, htake]

theorem applyLOp_numbersOK (db : DB) (op : LOp)
    (h : numbersOK (db.entries.map entryMeta)) :
    numbersOK ((applyLOp db op).entries.map entryMeta) := by
  rcases applyLOp_entries_cases db op with
    hsame | ⟨now, e, hc, _, hn, happ⟩ | ⟨eid, g, e0, _, hg, _, hmod⟩
  · rw [hsame]; exact h
  · rw [happ, List.map_append, List.map_singleton]
    have hme : entryMeta e =
        (fmtEntryNumber now.year (cntY (db.entries.map entryMeta) now.year + 1), now.year) := by
      rw [show entryMeta e = (e.entry_number, e.created_at.year) from rfl, hc, hn,
        generateEntryNumber_eq]
    rw [hme]
    exact numbersOK_append _ _ h
  · rw [hmod, map_entryMeta_modifyFirst (fun x => ⟨(hg x).2.1, (hg x).2.2⟩)]
    exact h

theorem runOps_numbersOK (ops : List LOp) : ∀ db : DB,
    numbersOK (db.entries.map entryMeta) →
    numbersOK ((runOps db ops).entries.map entryMeta) := by
  induction ops with
  | nil => intro db h; exact h
  | cons op t ih =>
    intro db h
    exact ih (applyLOp db op) (applyLOp_numbersOK db op h)

theorem cntY_take_lt {m : List (String × Nat)} {i j y : Nat} (hi : i < m.length)
    (hij : i < j) (hjle : j ≤ m.length) (hy : (m.get ⟨i, hi⟩).2 = y) :
    cntY (m.take i) y < cntY (m.take j) y := by
  have hsucc : cntY (m.take (i + 1)) y = cntY (m.take i) y + 1 := by
    rw [List.take_succ]
    have hopt : m[i]? = some (m.get ⟨i, hi⟩) := by
      rw [List.getElem?_eq_getElem hi, List.get_eq_getElem]
    rw [hopt, cntY_append]
    have hone : cntY [m.get ⟨i, hi⟩] y = 1 := by
      have hy3 : m[i].2 = y := hy
      simp [cntY, List.filter_cons, hy3]
    rw [show (some (m.get ⟨i, hi⟩)).toList = [m.get ⟨i, hi⟩] from rfl, hone]
  have hmono : cntY (m.take (i + 1)) y ≤ cntY (m.take j) y := by
    have : m.take (i + 1) = (m.take j).take (i + 1) := by
      rw [List.take_take, Nat.min_eq_left (by omega)]
    rw [this]
    exact cntY_take_le _ _ _
  omega

/-- Claim C7: for all entries created within the same calendar year (by
creation timestamp), over any sequence of service calls starting from an
empty database, the assigned `entry_number` values are pairwise distinct and
creation order yields strictly increasing numeric suffixes. -/
theorem entry_numbers_unique_increasing (ops : List LOp) (i j : Nat)
    (hi : i < (runOps DB.empty ops).entries.length)
    (hj : j < (runOps DB.empty ops).entries.length)
    (hij : i < j)
    (hy : ((runOps DB.empty ops).entries.get ⟨i, hi⟩).created_at.year =
          ((runOps DB.empty ops).entries.get ⟨j, hj⟩).created_at.year) :
    ((runOps DB.empty ops).entries.get ⟨i, hi⟩).entry_number ≠
      ((runOps DB.empty ops).entries.get ⟨j, hj⟩).entry_number ∧
    numericSuffix (((runOps DB.empty ops).entries.get ⟨i, hi⟩).entry_number) <
      numericSuffix (((runOps DB.empty ops).entries.get ⟨j, hj⟩).entry_number) := by
  have hOK : numbersOK ((runOps DB.empty ops).entries.map entryMeta) :=
    runOps_numbersOK ops DB.empty (by intro k hk; simp [DB.empty] at hk)
  have hmi : i < ((runOps DB.empty ops).entries.map entryMeta).length := by
    rw [List.length_map]; exact hi
  have hmj : j < ((runOps DB.empty ops).entries.map entryMeta).length := by
    rw [List.length_map]; exact hj
  have hgi : ((runOps DB.empty ops).entries.map entryMeta).get ⟨i, hmi⟩ =
      entryMeta ((runOps DB.empty ops).entries.get ⟨i, hi⟩) := List.get_map _
  have hgj : ((runOps DB.empty ops).entries.map entryMeta).get ⟨j, hmj⟩ =
      entryMeta ((runOps DB.empty ops).entries.get ⟨j, hj⟩) := List.get_map _
  have heqi := hOK i hmi
  have heqj := hOK j hmj
  rw [hgi] at heqi
  rw [hgj] at heqj
  set m := (runOps DB.empty ops).entries.map entryMeta with hm
  set y := ((runOps DB.empty ops).entries.get ⟨i, hi⟩).created_at.year with hyy
  have heqi' : ((runOps DB.empty ops).entries.get ⟨i, hi⟩).entry_number =
      fmtEntryNumber y (cntY (m.take i) y + 1) := heqi
  have heqj0 : ((runOps DB.empty ops).entries.get ⟨j, hj⟩).entry_number =
      fmtEntryNumber (((runOps DB.empty ops).entries.get ⟨j, hj⟩).created_at.year)
        (cntY (m.take j) (((runOps DB.empty ops).entries.get ⟨j, hj⟩).created_at.year) + 1) :=
    heqj
  have heqj' : ((runOps DB.empty ops).entries.get ⟨j, hj⟩).entry_number =
      fmtEntryNumber y (cntY (m.take j) y + 1) := by
    rw [← hy] at heqj0
    exact heqj0
  have hylt : (m.get ⟨i, hmi⟩).2 = y := by rw [hgi]; rfl
  have hcnt : cntY (m.take i) y < cntY (m.take j) y :=
    cntY_take_lt hmi hij (by omega) hylt
  have hsuf : numericSuffix (((runOps DB.empty ops).entries.get ⟨i, hi⟩).entry_number) <
      numericSuffix (((runOps DB.empty ops).entries.get ⟨j, hj⟩).entry_number) := by
    rw [heqi', heqj', numericSuffix_fmt, numericSuffix_fmt]
    omega
  refine ⟨?_, hsuf⟩
  intro hcontra
  rw [hcontra] at hsuf
  omega

theorem entry_numbers_unique_increasing_witness :
    ((runOps DB.empty twoCreates2024).entries.get ⟨0, by decide⟩).entry_number ≠
      ((runOps DB.empty twoCreates2024).entries.get ⟨1, by decide⟩).entry_number ∧
    numericSuffix (((runOps DB.empty twoCreates2024).entries.get ⟨0, by decide⟩).entry_number) <
      numericSuffix (((runOps DB.empty twoCreates2024).entries.get ⟨1, by decide⟩).entry_number) :=
  entry_numbers_unique_increasing twoCreates2024 0 1 (by decide) (by decide)
    (by decide) (by decide)

/-! ## The lifecycle state machine (claim C2) -/

theorem post_already_posted {db : DB} {e : JournalEntry} {eid : Nat}
    (hf : findEntry db.entries eid = some e) (h : e.status = .Posted) (now : Timestamp) :
    post_journal_entry db now eid = .error (.AlreadyPosted eid) := by
  unfold post_journal_entry
  simp only [hf]
  rw [if_pos (by simp [h])]

theorem post_cannot_post_void {db : DB} {e : JournalEntry} {eid : Nat}
    (hf : findEntry db.entries eid = some e) (h : e.status = .Void) (now : Timestamp) :
    post_journal_entry db now eid = .error (.CannotPostVoid eid) := by
  unfold post_journal_entry
  simp only [hf]
  rw [if_neg (by simp [h]), if_pos (by simp [h])]

theorem void_cannot_void_posted {db : DB} {e : JournalEntry} {eid : Nat}
    (hf : findEntry db.entries eid = some e) (h : e.status = .Posted)
    (now : Timestamp) (r : String) :
    void_journal_entry db now eid r = .error (.CannotVoidPosted eid) := by
  unfold void_journal_entry
  simp only [hf]
  rw [if_pos (by simp [h])]

theorem void_already_void {db : DB} {e : JournalEntry} {eid : Nat}
    (hf : findEntry db.entries eid = some e) (h : e.status = .Void)
    (now : Timestamp) (r : String) :
    void_journal_entry db now eid r = .error (.AlreadyVoid eid) := by
  unfold void_journal_entry
  simp only [hf]
  rw [if_neg (by simp [h]), if_pos (by simp [h])]

theorem applyLOp_status_step (db : DB) (op : LOp) (eid : Nat) (e : JournalEntry)
    (h : findEntry db.entries eid = some e) :
    ∃ e', findEntry (applyLOp db op).entries eid = some e' ∧
      statusStep e.status e'.status := by
  rcases applyLOp_entries_cases db op with
    hsame | ⟨now, x, _, _, _, happ⟩ | ⟨eid2, g, e0, hf0, hg, hstep, hmod⟩
  · exact ⟨e, by rw [hsame]; exact h, Or.inl rfl⟩
  · exact ⟨e, by rw [happ]; exact findEntry_append_left h x, Or.inl rfl⟩
  · by_cases heq : eid = eid2
    · subst heq
      rw [h] at hf0
      injection hf0 with hf0
      subst hf0
      refine ⟨g e, ?_, hstep⟩
      rw [hmod, findEntry_modifyFirst_self (fun x => (hg x).1), h]
      rfl
    · refine ⟨e, ?_, Or.inl rfl⟩
      rw [hmod, findEntry_modifyFirst_other (fun x => (hg x).1) heq]
      exact h

theorem statusStep_trans {s t u : EntryStatus} (h1 : statusStep s t)
    (h2 : statusStep t u) : statusStep s u := by
  rcases h1 with rfl | ⟨rfl, h1⟩
  · exact h2
  · rcases h2 with rfl | ⟨h2a, _⟩
    · exact Or.inr ⟨rfl, h1⟩
    · rcases h1 with rfl | rfl <;> exact EntryStatus.noConfusion h2a

theorem runOps_status_reach (ops : List LOp) : ∀ (db : DB) (eid : Nat) (e : JournalEntry),
    findEntry db.entries eid = some e →
    ∃ e', findEntry (runOps db ops).entries eid = some e' ∧
      statusStep e.status e'.status := by
  induction ops with
  | nil => intro db eid e h; exact ⟨e, h, Or.inl rfl⟩
  | cons op t ih =>
    intro db eid e h
    obtain ⟨e1, h1, hs1⟩ := applyLOp_status_step db op eid e h
    obtain ⟨e2, h2, hs2⟩ := ih (applyLOp db op) eid e1 h1
    exact ⟨e2, h2, statusStep_trans hs1 hs2⟩

theorem applyLOp_new_entry_draft (db : DB) (op : LOp) (eid : Nat) (e' : JournalEntry)
    (hnone : findEntry db.entries eid = none)
    (hsome : findEntry (applyLOp db op).entries eid = some e') :
    e'.status = .Draft := by
  rcases applyLOp_entries_cases db op with
    hsame | ⟨now, x, _, hd, _, happ⟩ | ⟨eid2, g, e0, hf0, hg, _, hmod⟩
  · rw [hsame, hnone] at hsome; exact absurd hsome (by simp)
  · rw [happ, findEntry_append_none hnone x] at hsome
    by_cases hx : (x.id == eid) = true
    · rw [if_pos hx] at hsome
      injection hsome with h2
      rw [← h2]
      exact hd
    · rw [if_neg hx] at hsome; exact absurd hsome (by simp)
  · by_cases heq : eid = eid2
    · subst heq; rw [hnone] at hf0; exact absurd hf0 (by simp)
    · rw [hmod, findEntry_modifyFirst_other (fun x => (hg x).1) heq, hnone] at hsome
      exact absurd hsome (by simp)

/-- Claim C2: over any sequence of service calls, an entry's status only ever
stays put or moves `Draft → Posted` / `Draft → Void` (so the observed status
sequence is a prefix of `Draft → (Posted | Void)` and `Posted → Void` never
occurs); newly appearing entries start as Draft; and posting or voiding an
entry already in a terminal state fails with the matching error kind. -/
theorem entry_status_machine (db : DB) (eid : Nat) :
    (∀ (ops : List LOp) (e e' : JournalEntry), findEntry db.entries eid = some e →
        findEntry (runOps db ops).entries eid = some e' →
        statusStep e.status e'.status)
  ∧ (∀ (op : LOp) (e' : JournalEntry), findEntry db.entries eid = none →
        findEntry (applyLOp db op).entries eid = some e' → e'.status = .Draft)
  ∧ (∀ (now : Timestamp) (e : JournalEntry), findEntry db.entries eid = some e →
        e.status = .Posted →
        post_journal_entry db now eid = .error (.AlreadyPosted eid))
  ∧ (∀ (now : Timestamp) (e : JournalEntry), findEntry db.entries eid = some e →
        e.status = .Void →
        post_journal_entry db now eid = .error (.CannotPostVoid eid))
  ∧ (∀ (now : Timestamp) (r : String) (e : JournalEntry),
        findEntry db.entries eid = some e → e.status = .Posted →
        void_journal_entry db now eid r = .error (.CannotVoidPosted eid))
  ∧ (∀ (now : Timestamp) (r : String) (e : JournalEntry),
        findEntry db.entries eid = some e → e.status = .Void →
        void_journal_entry db now eid r = .error (.AlreadyVoid eid)) := by
  refine ⟨?_, ?_, ?_, ?_, ?_, ?_⟩
  · intro ops e e' he he'
    obtain ⟨e2, h2, hs2⟩ := runOps_status_reach ops db eid e he
    rw [he'] at h2
    injection h2 with h2
    rw [← h2] at hs2
    exact hs2
  · intro op e' hnone hsome
    exact applyLOp_new_entry_draft db op eid e' hnone hsome
  · intro now e he hp
    exact post_already_posted he hp now
  · intro now e he hv
    exact post_cannot_post_void he hv now
  · intro now r e he hp
    exact void_cannot_void_posted he hp now r
  · intro now r e he hv
    exact void_already_void he hv now r

theorem entry_status_machine_witness :
    statusStep ePostedW.status ePostedW.status ∧
    eNewW.status = .Draft ∧
    post_journal_entry dbPV ⟨2024, 1⟩ 1 = .error (.AlreadyPosted 1) ∧
    post_journal_entry dbPV ⟨2024, 1⟩ 2 = .error (.CannotPostVoid 2) ∧
    void_journal_entry dbPV ⟨2024, 1⟩ 1 "dup" = .error (.CannotVoidPosted 1) ∧
    void_journal_entry dbPV ⟨2024, 1⟩ 2 "dup" = .error (.AlreadyVoid 2) :=
  ⟨(entry_status_machine dbPV 1).1 [] ePostedW ePostedW (by decide) (by decide),
   (entry_status_machine dbPV 3).2.1
     (LOp.create ⟨2024, 0⟩ ⟨5, none, "new", "Manual", []⟩) eNewW (by decide) (by decide),
   (entry_status_machine dbPV 1).2.2.1 ⟨2024, 1⟩ ePostedW (by decide) (by decide),
   (entry_status_machine dbPV 2).2.2.2.1 ⟨2024, 1⟩ eVoidW (by decide) (by decide),
   (entry_status_machine dbPV 1).2.2.2.2.1 ⟨2024, 1⟩ "dup" ePostedW (by decide) (by decide),
   (entry_status_machine dbPV 2).2.2.2.2.2 ⟨2024, 1⟩ "dup" eVoidW (by decide) (by decide)⟩

/-! ## createEntry (claim C1) -/

theorem create_journal_entry_err_invalid {db : DB} {now : Timestamp}
    {c : JournalEntryCreate} {aid : Nat}
    (hbal : sumDebits c.journal_lines = sumCredits c.journal_lines)
    (hfi : firstInvalidAccount db c.journal_lines = some aid) :
    create_journal_entry db now c = .error (.InvalidAccount aid) := by
  unfold create_journal_entry
  have hb : (sumDebits c.journal_lines == sumCredits c.journal_lines) = true := by
    simpa using hbal
  simp only [hb, Bool.not_true]
  rw [if_neg (by simp), hfi]

/-- Claim C1: `create_journal_entry` computes the totals as the sums of the
lines' debit and credit amounts; when the sums differ it fails with
`Unbalanced` (that check runs first); when the sums agree but some line
references a missing or inactive account it fails with `InvalidAccount`
naming such an account; and on success the stored entry is a Draft whose
totals are exactly those sums, appended to the entries table. -/
theorem createEntry_spec (db : DB) (now : Timestamp) (c : JournalEntryCreate) :
    (sumDebits c.journal_lines ≠ sumCredits c.journal_lines →
      create_journal_entry db now c =
        .error (.Unbalanced (sumDebits c.journal_lines) (sumCredits c.journal_lines)))
  ∧ (sumDebits c.journal_lines = sumCredits c.journal_lines →
      (∃ l ∈ c.journal_lines, accountValid db l.account_id = false) →
      ∃ aid, create_journal_entry db now c = .error (.InvalidAccount aid) ∧
        (∃ l ∈ c.journal_lines, l.account_id = aid) ∧ accountValid db aid = false)
  ∧ (∀ (db' : DB) (e : JournalEntry), create_journal_entry db now c = .ok (db', e) →
      e.status = .Draft ∧ e.total_debits = sumDebits c.journal_lines ∧
      e.total_credits = sumCredits c.journal_lines ∧
      db'.entries = db.entries ++ [e]) := by
  refine ⟨?_, ?_, ?_⟩
  · intro h
    exact create_journal_entry_err_unbalanced h
  · intro hbal hex
    obtain ⟨aid, hfi, hmem, hbad⟩ := firstInvalid_some_of_exists db c.journal_lines hex
    exact ⟨aid, create_journal_entry_err_invalid hbal hfi, hmem, hbad⟩
  · intro db' e h
    obtain ⟨h1, _, h3, _, _, h6, h7, _⟩ := create_journal_entry_ok h
    exact ⟨h3, h6, h7, h1⟩

theorem createEntry_spec_witness :
    create_journal_entry dbAccW ⟨2024, 0⟩ ceUnbalW =
      .error (.Unbalanced (sumDebits ceUnbalW.journal_lines)
        (sumCredits ceUnbalW.journal_lines)) ∧
    (∃ aid, create_journal_entry dbAccW ⟨2024, 0⟩ ceInvalidW =
        .error (.InvalidAccount aid) ∧
      (∃ l ∈ ceInvalidW.journal_lines, l.account_id = aid) ∧
      accountValid dbAccW aid = false) ∧
    (eOkW.status = .Draft ∧ eOkW.total_debits = sumDebits ceOkW.journal_lines ∧
      eOkW.total_credits = sumCredits ceOkW.journal_lines ∧
      (⟨dbAccW.accounts, [eOkW], 3, 2⟩ : DB).entries = dbAccW.entries ++ [eOkW]) :=
  ⟨(createEntry_spec dbAccW ⟨2024, 0⟩ ceUnbalW).1 (by decide),
   (createEntry_spec dbAccW ⟨2024, 0⟩ ceInvalidW).2.1 (by decide)
     ⟨⟨2, 1, none, 100, 0⟩, by decide, by decide⟩,
   (createEntry_spec dbAccW ⟨2024, 0⟩ ceOkW).2.2 ⟨dbAccW.accounts, [eOkW], 3, 2⟩ eOkW
     rfl⟩

/-! ## postEntry on a Draft entry (claim C3) -/

/-- Claim C3 as amended: posting an existing Draft entry fails with the
unbalanced-entry error when `is_balanced` is false, and on success sets the
status to Posted and stamps `posted_at`; `posted_by` is left unchanged — the
code never writes it. -/
theorem postEntry_draft_spec (db : DB) (now : Timestamp) (eid : Nat)
    (e : JournalEntry) (hf : findEntry db.entries eid = some e)
    (hd : e.status = .Draft) :
    (e.is_balanced = false →
      post_journal_entry db now eid = .error (.CannotPostUnbalanced eid))
  ∧ (e.is_balanced = true →
      post_journal_entry db now eid =
        .ok { db with entries := modifyFirstEntry db.entries eid (postTransform now) } ∧
      (postTransform now e).status = .Posted ∧
      (postTransform now e).posted_at = some now ∧
      (postTransform now e).posted_by = e.posted_by ∧
      findEntry (modifyFirstEntry db.entries eid (postTransform now)) eid =
        some (postTransform now e)) := by
  constructor
  · intro hb
    unfold post_journal_entry
    simp only [hf]
    rw [if_neg (by simp [hd]), if_neg (by simp [hd]), hb]
    simp only [Bool.not_false]
    rw [if_pos trivial]
  · intro hb
    refine ⟨?_, rfl, rfl, rfl, ?_⟩
    · unfold post_journal_entry
      simp only [hf]
      rw [if_neg (by simp [hd]), if_neg (by simp [hd]), hb]
      simp only [Bool.not_true]
      rw [if_neg (by simp)]
    · rw [findEntry_modifyFirst_self (g := postTransform now) (fun x => rfl), hf]
      rfl

theorem postEntry_draft_spec_witness :
    post_journal_entry dbDraftW ⟨2024, 3⟩ 1 =
      .ok { dbDraftW with
        entries := modifyFirstEntry dbDraftW.entries 1 (postTransform ⟨2024, 3⟩) } ∧
    (postTransform ⟨2024, 3⟩ eDraftW).status = .Posted ∧
    (postTransform ⟨2024, 3⟩ eDraftW).posted_at = some ⟨2024, 3⟩ ∧
    (postTransform ⟨2024, 3⟩ eDraftW).posted_by = eDraftW.posted_by ∧
    findEntry (modifyFirstEntry dbDraftW.entries 1 (postTransform ⟨2024, 3⟩)) 1 =
      some (postTransform ⟨2024, 3⟩ eDraftW) :=
  (postEntry_draft_spec dbDraftW ⟨2024, 3⟩ 1 eDraftW rfl rfl).2 rfl

/-- Counterexample to claim C3 as stated: posting this balanced Draft entry
succeeds, yet the stored entry's `posted_by` is still `none` — the code stamps
`posted_at` but never `posted_by`. -/
theorem postEntry_posted_by_not_stamped :
    post_journal_entry dbDraftW ⟨2024, 3⟩ 1 = .ok ⟨[], [ePostedResW], 1, 2⟩ ∧
    ePostedResW.posted_by = none ∧ ePostedResW.status = .Posted ∧
    ePostedResW.posted_at = some ⟨2024, 3⟩ :=
  ⟨rfl, rfl, rfl, rfl⟩

/-! ## voidEntry (claim C8) -/

/-- Claim C8, the code-bug view: `void_journal_entry` takes the `reason`
argument but never stores it — the entry model has no void-reason column (the
Python code says `TODO: Add void reason field`), so the result is identical
for any two reasons.  The error kinds of the claim do hold: `NotFound` for an
unknown id, `CannotVoidPosted` for a Posted entry, `AlreadyVoid` for a Void
one, and a successful void sets status Void — but no reason is recorded. -/
theorem voidEntry_reason_not_recorded :
    (∀ (db : DB) (now : Timestamp) (eid : Nat) (r1 r2 : String),
      void_journal_entry db now eid r1 = void_journal_entry db now eid r2) ∧
    void_journal_entry dbDraftW ⟨2024, 3⟩ 1 "duplicate entry" =
      .ok { dbDraftW with
        entries := modifyFirstEntry dbDraftW.entries 1 (voidTransform ⟨2024, 3⟩) } ∧
    (voidTransform ⟨2024, 3⟩ eDraftW).status = .Void ∧
    void_journal_entry dbPV ⟨2024, 1⟩ 99 "r" = .error (.NotFound 99) ∧
    void_journal_entry dbPV ⟨2024, 1⟩ 1 "r" = .error (.CannotVoidPosted 1) ∧
    void_journal_entry dbPV ⟨2024, 1⟩ 2 "r" = .error (.AlreadyVoid 2) :=
  ⟨fun _ _ _ _ _ => rfl, rfl, rfl, rfl, rfl, rfl⟩

/-! ## updateEntry rejects only Posted (claim C10) -/

/-- Claim C10: `update_journal_entry` rejects only entries whose current
status is Posted; an existing entry in the terminal Void status can still be
updated — scalar fields change and the full line set is replaced, subject to
the usual balance and account-activity validation. -/
theorem updateEntry_void_spec (db : DB) (now : Timestamp) (eid : Nat)
    (u : JournalEntryUpdate) (e : JournalEntry)
    (hf : findEntry db.entries eid = some e) :
    (e.status = .Posted → update_journal_entry db now eid u = .error .ImmutablePosted)
  ∧ (e.status = .Void → ∀ ls, u.journal_lines = some ls →
      (∀ l ∈ ls, accountValid db l.account_id = true) →
      sumDebits ls = sumCredits ls →
      update_journal_entry db now eid u =
        .ok (some ({ db with
            entries := modifyFirstEntry db.entries eid (applyEntryUpdate now u eid) },
          applyEntryUpdate now u eid e)) ∧
      (applyEntryUpdate now u eid e).status = .Void ∧
      (applyEntryUpdate now u eid e).journal_lines = ls.map (toLine eid) ∧
      (applyEntryUpdate now u eid e).total_debits = sumDebits ls ∧
      (applyEntryUpdate now u eid e).total_credits = sumCredits ls ∧
      (applyEntryUpdate now u eid e).entry_date = u.entry_date.getD e.entry_date ∧
      (applyEntryUpdate now u eid e).description = u.description.getD e.description) := by
  constructor
  · intro hp
    unfold update_journal_entry
    simp only [hf]
    rw [if_pos (by simp [hp])]
  · intro hv ls hls hval hbal
    have hfi : firstInvalidAccount db ls = none := (firstInvalid_none_iff db ls).mpr hval
    have hb : (sumDebits ls == sumCredits ls) = true := by simpa using hbal
    constructor
    · unfold update_journal_entry
      simp only [hf]
      rw [if_neg (by simp [hv]), hls]
      simp only [hfi, hb, Bool.not_true]
      rw [if_neg (by simp)]
    · have hst : (applyEntryUpdate now u eid e).status = e.status :=
        (applyEntryUpdate_meta now u eid e).2.1
      refine ⟨by rw [hst, hv], ?_, ?_, ?_, ?_, ?_⟩ <;>
        simp [applyEntryUpdate, applyEntryScalars, hls, hb]

theorem updateEntry_void_spec_witness :
    update_journal_entry dbVoidAccW ⟨2024, 4⟩ 2 updVoidW =
      .ok (some ({ dbVoidAccW with
          entries := modifyFirstEntry dbVoidAccW.entries 2 (applyEntryUpdate ⟨2024, 4⟩ updVoidW 2) },
        applyEntryUpdate ⟨2024, 4⟩ updVoidW 2 eVoidW)) ∧
    (applyEntryUpdate ⟨2024, 4⟩ updVoidW 2 eVoidW).status = .Void ∧
    (applyEntryUpdate ⟨2024, 4⟩ updVoidW 2 eVoidW).journal_lines =
      [⟨1, 1, none, 50, 0⟩, ⟨1, 2, none, 0, 50⟩].map (toLine 2) ∧
    (applyEntryUpdate ⟨2024, 4⟩ updVoidW 2 eVoidW).total_debits =
      sumDebits [⟨1, 1, none, 50, 0⟩, ⟨1, 2, none, 0, 50⟩] ∧
    (applyEntryUpdate ⟨2024, 4⟩ updVoidW 2 eVoidW).total_credits =
      sumCredits [⟨1, 1, none, 50, 0⟩, ⟨1, 2, none, 0, 50⟩] ∧
    (applyEntryUpdate ⟨2024, 4⟩ updVoidW 2 eVoidW).entry_date =
      updVoidW.entry_date.getD eVoidW.entry_date ∧
    (applyEntryUpdate ⟨2024, 4⟩ updVoidW 2 eVoidW).description =
      updVoidW.description.getD eVoidW.description :=
  (updateEntry_void_spec dbVoidAccW ⟨2024, 4⟩ 2 updVoidW eVoidW rfl).2 rfl
    [⟨1, 1, none, 50, 0⟩, ⟨1, 2, none, 0, 50⟩] rfl (by decide) (by decide)

/-! ## createReversingEntry (claim C4) -/

theorem forall2_map_self {α β : Type} (f : α → β) (P : β → α → Prop)
    (h : ∀ x, P (f x) x) : ∀ l : List α, List.Forall₂ P (l.map f) l := by
  intro l
  induction l with
  | nil => exact List.Forall₂.nil
  | cons x t ih => exact List.Forall₂.cons (h x) ih

/-- Claim C4 as amended: `create_reversing_entry` fails with `NotPosted` when
the source entry exists but is not Posted; when the source is Posted — and
provided each referenced account is still active and the original's line
amounts balance (the reversal delegates to `create_journal_entry` and
inherits its validation) — it appends a new Draft entry dated `reverse_date`
with type `System`, reference `REV-<original entry_number>` and one line per
original line with debit and credit amounts swapped, leaving the original
entry completely unchanged. -/
theorem reversingEntry_spec (db : DB) (now : Timestamp) (eid : Nat) (rd : Int)
    (e : JournalEntry) (hf : findEntry db.entries eid = some e) :
    (e.status ≠ .Posted →
      create_reversing_entry db now eid rd = .error (.NotPosted eid))
  ∧ (e.status = .Posted →
      (∀ l ∈ e.journal_lines, accountValid db l.account_id = true) →
      (e.journal_lines.map (fun l => l.debit_amount)).sum =
        (e.journal_lines.map (fun l => l.credit_amount)).sum →
      ∃ (db' : DB) (r : JournalEntry),
        create_reversing_entry db now eid rd = .ok (db', r) ∧
        r.status = .Draft ∧ r.entry_date = rd ∧ r.entry_type = "System" ∧
        r.reference = some ("REV-" ++ e.entry_number) ∧
        r.journal_lines =
          e.journal_lines.map (fun l => toLine db.nextEntryId (reversingLine e.entry_number l)) ∧
        List.Forall₂ (fun (rl ol : JournalLine) =>
          rl.account_id = ol.account_id ∧ rl.debit_amount = ol.credit_amount ∧
          rl.credit_amount = ol.debit_amount) r.journal_lines e.journal_lines ∧
        db'.entries = db.entries ++ [r] ∧
        findEntry db'.entries eid = some e) := by
  constructor
  · intro hne
    unfold create_reversing_entry
    simp only [hf]
    have : (e.status == EntryStatus.Posted) = false := by
      simpa using hne
    rw [this]
    simp only [Bool.not_false]
    rw [if_pos trivial]
  · intro hp hval hbal
    set ce : JournalEntryCreate :=
      { entry_date := rd
        reference := some ("REV-" ++ e.entry_number)
        description := "Reversing entry for " ++ e.entry_number
        entry_type := "System"
        journal_lines := e.journal_lines.map (reversingLine e.entry_number) } with hce
    have hsd : sumDebits ce.journal_lines =
        (e.journal_lines.map (fun l => l.credit_amount)).sum := by
      rw [hce]
      unfold sumDebits
      rw [List.map_map]
      rfl
    have hsc : sumCredits ce.journal_lines =
        (e.journal_lines.map (fun l => l.debit_amount)).sum := by
      rw [hce]
      unfold sumCredits
      rw [List.map_map]
      rfl
    have hbal2 : sumDebits ce.journal_lines = sumCredits ce.journal_lines := by
      rw [hsd, hsc, hbal]
    have hval2 : firstInvalidAccount db ce.journal_lines = none := by
      apply (firstInvalid_none_iff db ce.journal_lines).mpr
      intro l hl
      rw [hce] at hl
      rcases List.mem_map.mp hl with ⟨x, hx, rfl⟩
      exact hval x hx
    have hstep : create_reversing_entry db now eid rd = create_journal_entry db now ce := by
      unfold create_reversing_entry
      simp only [hf]
      rw [show (e.status == EntryStatus.Posted) = true by simp [hp]]
      simp only [Bool.not_true]
      rw [if_neg (by simp)]
    have hcr := @create_journal_entry_ok_of_valid db now ce hbal2 hval2
    rw [hstep, hcr]
    refine ⟨_, _, rfl, rfl, rfl, rfl, rfl, ?_, ?_, ?_, ?_⟩
    · show ce.journal_lines.map (toLine db.nextEntryId) =
        e.journal_lines.map (fun l => toLine db.nextEntryId (reversingLine e.entry_number l))
      rw [hce]
      rw [List.map_map]
      rfl
    · show List.Forall₂ _ (ce.journal_lines.map (toLine db.nextEntryId)) e.journal_lines
      rw [hce, List.map_map]
      exact forall2_map_self _ _ (fun x => ⟨rfl, rfl, rfl⟩) e.journal_lines
    · rfl
    · show findEntry (db.entries ++ [_]) eid = some e
      exact findEntry_append_left hf _

/-- Counterexample to claim C4 as stated: after the trace above the entry is
Posted, yet `create_reversing_entry` does not create a reversal — it fails
with `InvalidAccount 1` because account 1 was deactivated after posting (the
delegated `create_journal_entry` validation is inherited). -/
theorem reversingEntry_not_always_created :
    create_reversing_entry (runOps DB.empty revCounterOps) ⟨2024, 2⟩ 1 50 =
      .error (.InvalidAccount 1) ∧
    (findEntry (runOps DB.empty revCounterOps).entries 1).map (fun e => e.status) =
      some .Posted := by
  exact ⟨by decide, by decide⟩

theorem reversingEntry_spec_witness :
    ∃ (db' : DB) (r : JournalEntry),
      create_reversing_entry dbRevW ⟨2024, 5⟩ 1 50 = .ok (db', r) ∧
      r.status = .Draft ∧ r.entry_date = 50 ∧ r.entry_type = "System" ∧
      r.reference = some ("REV-" ++ ePostedRevW.entry_number) ∧
      r.journal_lines =
        ePostedRevW.journal_lines.map
          (fun l => toLine dbRevW.nextEntryId (reversingLine ePostedRevW.entry_number l)) ∧
      List.Forall₂ (fun (rl ol : JournalLine) =>
        rl.account_id = ol.account_id ∧ rl.debit_amount = ol.credit_amount ∧
        rl.credit_amount = ol.debit_amount) r.journal_lines ePostedRevW.journal_lines ∧
      db'.entries = dbRevW.entries ++ [r] ∧
      findEntry db'.entries 1 = some ePostedRevW :=
  (reversingEntry_spec dbRevW ⟨2024, 5⟩ 1 50 ePostedRevW rfl).2 rfl (by decide) (by decide)

/-! ## accountBalance (claim C5) -/

/-- Claim C5, the code-bug view: `get_account_balance` is an unimplemented
placeholder (`TODO: Implement actual balance calculation from journal
entries`).  On a database where the specified computation yields debit
150.00 / net 150.00 for the Debit-normal account 1, the code returns
hard-coded zeros. -/
theorem accountBalance_stub_returns_zero :
    get_account_balance dbBalW 1 none 99 =
      .ok { account_id := 1, account_code := "1000", as_of_date := 99
            debit_balance := 0, credit_balance := 0, net_balance := 0 } ∧
    specAccountBalance dbBalW 1 none = some (15000, 0, 15000) ∧
    specAccountBalance dbBalW 1 (some 10) = some (15000, 0, 15000) :=
  ⟨rfl, by decide, by decide⟩

/-! ## updateAccount acyclicity (claim C6) -/

/-- Claim C6, the code-bug view: `update_account` applies a supplied
`parent_account_id` with no cycle (or even existence) validation — there is
no `CyclicParent` failure anywhere in the code.  Setting account 1's parent
to account 1 itself succeeds and commits the self-loop. -/
theorem updateAccount_allows_self_parent :
    update_account dbAccW 1 { parent_account_id := some (some 1) } =
      some (⟨[accSelfParentW, accInactiveW], [], 3, 1⟩, accSelfParentW) ∧
    accSelfParentW.parent_account_id = some 1 :=
  ⟨rfl, rfl⟩

/-! ## agingReport (claim C9) -/

theorem bucketAgg_cons_pos {p : Invoice → Bool} {i : Invoice} (l : List Invoice)
    (h : p i = true) :
    bucketAgg p (i :: l) =
      ⟨outstandingOf i + (bucketAgg p l).amount, (bucketAgg p l).count + 1⟩ := by
  simp [bucketAgg, List.filter_cons, h]

theorem bucketAgg_cons_neg {p : Invoice → Bool} {i : Invoice} (l : List Invoice)
    (h : p i = false) :
    bucketAgg p (i :: l) = bucketAgg p l := by
  simp [bucketAgg, List.filter_cons, h]

theorem addInvoice_bucket_current {d : Int} {i : Invoice} (r : AgingReport)
    (h : d - i.due_date ≤ 0) :
    addInvoiceToReport d r i =
      { r with current := ⟨r.current.amount + outstandingOf i, r.current.count + 1⟩
               total_outstanding := r.total_outstanding + outstandingOf i } := by
  have hidx : agingBucketIndex (d - i.due_date) = 0 := by simp [agingBucketIndex, h]
  simp [addInvoiceToReport, hidx, outstandingOf]

theorem addInvoice_bucket_1_30 {d : Int} {i : Invoice} (r : AgingReport)
    (h0 : ¬(d - i.due_date ≤ 0)) (h30 : d - i.due_date ≤ 30) :
    addInvoiceToReport d r i =
      { r with days_1_30 := ⟨r.days_1_30.amount + outstandingOf i, r.days_1_30.count + 1⟩
               total_outstanding := r.total_outstanding + outstandingOf i } := by
  have hidx : agingBucketIndex (d - i.due_date) = 1 := by
    simp only [agingBucketIndex]
    split_ifs <;> omega
  simp [addInvoiceToReport, hidx, outstandingOf]

theorem addInvoice_bucket_31_60 {d : Int} {i : Invoice} (r : AgingReport)
    (h30 : ¬(d - i.due_date ≤ 30)) (h60 : d - i.due_date ≤ 60) :
    addInvoiceToReport d r i =
      { r with days_31_60 := ⟨r.days_31_60.amount + outstandingOf i, r.days_31_60.count + 1⟩
               total_outstanding := r.total_outstanding + outstandingOf i } := by
  have hidx : agingBucketIndex (d - i.due_date) = 2 := by
    simp only [agingBucketIndex]
    split_ifs <;> omega
  simp [addInvoiceToReport, hidx, outstandingOf]

theorem addInvoice_bucket_61_90 {d : Int} {i : Invoice} (r : AgingReport)
    (h60 : ¬(d - i.due_date ≤ 60)) (h90 : d - i.due_date ≤ 90) :
    addInvoiceToReport d r i =
      { r with days_61_90 := ⟨r.days_61_90.amount + outstandingOf i, r.days_61_90.count + 1⟩
               total_outstanding := r.total_outstanding + outstandingOf i } := by
  have hidx : agingBucketIndex (d - i.due_date) = 3 := by
    simp only [agingBucketIndex]
    split_ifs <;> omega
  simp [addInvoiceToReport, hidx, outstandingOf]

theorem addInvoice_bucket_over_90 {d : Int} {i : Invoice} (r : AgingReport)
    (h90 : ¬(d - i.due_date ≤ 90)) :
    addInvoiceToReport d r i =
      { r with over_90 := ⟨r.over_90.amount + outstandingOf i, r.over_90.count + 1⟩
               total_outstanding := r.total_outstanding + outstandingOf i } := by
  have hidx : agingBucketIndex (d - i.due_date) = 4 := by
    simp only [agingBucketIndex]
    split_ifs <;> omega
  simp [addInvoiceToReport, hidx, outstandingOf]

theorem agingFold_eq (d : Int) : ∀ (l : List Invoice) (r : AgingReport),
    l.foldl (addInvoiceToReport d) r =
      { current := ⟨r.current.amount + (bucketAgg (inCurrent d) l).amount,
                    r.current.count + (bucketAgg (inCurrent d) l).count⟩
        days_1_30 := ⟨r.days_1_30.amount + (bucketAgg (in1_30 d) l).amount,
                      r.days_1_30.count + (bucketAgg (in1_30 d) l).count⟩
        days_31_60 := ⟨r.days_31_60.amount + (bucketAgg (in31_60 d) l).amount,
                       r.days_31_60.count + (bucketAgg (in31_60 d) l).count⟩
        days_61_90 := ⟨r.days_61_90.amount + (bucketAgg (in61_90 d) l).amount,
                       r.days_61_90.count + (bucketAgg (in61_90 d) l).count⟩
        over_90 := ⟨r.over_90.amount + (bucketAgg (inOver90 d) l).amount,
                    r.over_90.count + (bucketAgg (inOver90 d) l).count⟩
        total_outstanding := r.total_outstanding + (l.map outstandingOf).sum
        total_invoices := r.total_invoices } := by
  intro l
  induction l with
  | nil =>
    intro r
    rcases r with ⟨⟨ca, cc⟩, ⟨a2, c2⟩, ⟨a3, c3⟩, ⟨a4, c4⟩, ⟨a5, c5⟩, t, n⟩
    simp [bucketAgg]
  | cons i tl ih =>
    intro r
    rw [List.foldl_cons, ih, List.map_cons, List.sum_cons]
    by_cases h0 : d - i.due_date ≤ 0
    · rw [addInvoice_bucket_current r h0,
        bucketAgg_cons_pos tl (by simp [inCurrent]; omega),
        bucketAgg_cons_neg (p := in1_30 d) tl (by simp [in1_30]; omega),
        bucketAgg_cons_neg (p := in31_60 d) tl (by simp [in31_60]; omega),
        bucketAgg_cons_neg (p := in61_90 d) tl (by simp [in61_90]; omega),
        bucketAgg_cons_neg (p := inOver90 d) tl (by simp [inOver90]; omega)]
      simp <;> omega
    · by_cases h30 : d - i.due_date ≤ 30
      · rw [addInvoice_bucket_1_30 r h0 h30,
          bucketAgg_cons_neg (p := inCurrent d) tl (by simp [inCurrent]; omega),
          bucketAgg_cons_pos tl (by simp [in1_30]; omega),
          bucketAgg_cons_neg (p := in31_60 d) tl (by simp [in31_60]; omega),
          bucketAgg_cons_neg (p := in61_90 d) tl (by simp [in61_90]; omega),
          bucketAgg_cons_neg (p := inOver90 d) tl (by simp [inOver90]; omega)]
        simp <;> omega
      · by_cases h60 : d - i.due_date ≤ 60
        · rw [addInvoice_bucket_31_60 r h30 h60,
            bucketAgg_cons_neg (p := inCurrent d) tl (by simp [inCurrent]; omega),
            bucketAgg_cons_neg (p := in1_30 d) tl (by simp [in1_30]; omega),
            bucketAgg_cons_pos tl (by simp [in31_60]; omega),
            bucketAgg_cons_neg (p := in61_90 d) tl (by simp [in61_90]; omega),
            bucketAgg_cons_neg (p := inOver90 d) tl (by simp [inOver90]; omega)]
          simp <;> omega
        · by_cases h90 : d - i.due_date ≤ 90
          · rw [addInvoice_bucket_61_90 r h60 h90,
              bucketAgg_cons_neg (p := inCurrent d) tl (by simp [inCurrent]; omega),
              bucketAgg_cons_neg (p := in1_30 d) tl (by simp [in1_30]; omega),
              bucketAgg_cons_neg (p := in31_60 d) tl (by simp [in31_60]; omega),
              bucketAgg_cons_pos tl (by simp [in61_90]; omega),
              bucketAgg_cons_neg (p := inOver90 d) tl (by simp [inOver90]; omega)]
            simp <;> omega
          · rw [addInvoice_bucket_over_90 r h90,
              bucketAgg_cons_neg (p := inCurrent d) tl (by simp [inCurrent]; omega),
              bucketAgg_cons_neg (p := in1_30 d) tl (by simp [in1_30]; omega),
              bucketAgg_cons_neg (p := in31_60 d) tl (by simp [in31_60]; omega),
              bucketAgg_cons_neg (p := in61_90 d) tl (by simp [in61_90]; omega),
              bucketAgg_cons_pos tl (by simp [inOver90]; omega)]
            simp <;> omega

/-- Claim C9 as amended: `generate_aging_report` operates only on the open
invoices its query selects — status `"Sent"`, `due_date ≤ asOfDate`,
`paid_amount < total_amount` (and the optional customer filter).  Each such
item is classified by `daysOverdue = asOfDate − due_date` into the buckets
current (≤0, i.e. due exactly on `asOfDate` given the filter), 1–30, 31–60,
61–90 and over-90, accumulating its outstanding amount
(`total_amount − paid_amount`) and a count per bucket; the totals are the sum
and number of the selected invoices.  An item not yet due on `asOfDate`
(`due_date > asOfDate`) is excluded by the query, not placed in `current`. -/
theorem agingReport_spec (invoices : List Invoice) (as_of : Int) (cust : Option Nat) :
    (generate_aging_report invoices as_of cust).current =
      bucketAgg (inCurrent as_of) (agingOpenInvoices invoices as_of cust) ∧
    (generate_aging_report invoices as_of cust).days_1_30 =
      bucketAgg (in1_30 as_of) (agingOpenInvoices invoices as_of cust) ∧
    (generate_aging_report invoices as_of cust).days_31_60 =
      bucketAgg (in31_60 as_of) (agingOpenInvoices invoices as_of cust) ∧
    (generate_aging_report invoices as_of cust).days_61_90 =
      bucketAgg (in61_90 as_of) (agingOpenInvoices invoices as_of cust) ∧
    (generate_aging_report invoices as_of cust).over_90 =
      bucketAgg (inOver90 as_of) (agingOpenInvoices invoices as_of cust) ∧
    (generate_aging_report invoices as_of cust).total_outstanding =
      ((agingOpenInvoices invoices as_of cust).map outstandingOf).sum ∧
    (generate_aging_report invoices as_of cust).total_invoices =
      (agingOpenInvoices invoices as_of cust).length := by
  simp only [generate_aging_report]
  rw [agingFold_eq]
  refine ⟨?_, ?_, ?_, ?_, ?_, ?_, ?_⟩ <;> simp

/-- Counterexample to claim C9 as stated: `invNotDueW` is an open item not
yet due on the report date, so the claim puts it in the `current` bucket;
the code's query excludes it entirely — every bucket is empty and the
invoice count is zero. -/
theorem agingReport_excludes_not_yet_due :
    generate_aging_report [invNotDueW] 100 none =
      ⟨⟨0, 0⟩, ⟨0, 0⟩, ⟨0, 0⟩, ⟨0, 0⟩, ⟨0, 0⟩, 0, 0⟩ ∧
    invNotDueW.status = "Sent" ∧
    invNotDueW.paid_amount < invNotDueW.total_amount ∧
    (100 : Int) - invNotDueW.due_date ≤ 0 :=
  ⟨rfl, rfl, by decide, by decide⟩
